import Mathlib

/-!
Shallow embedding of the virus-sim simulation engine (`src/main.py`):
the pathogen model (`Pathogen`), the agent health state machine
(`Person`), and the world day-step algorithm (`World.update`), together
with outbreak seeding (`World.spread_pathogen`).

Modelling conventions:
* Python machine reals are modelled as rationals (`ℚ`); none of the
  verified properties depends on binary floating-point rounding.
* Python's `random` module is modelled as an explicit stream of draws
  (`Rng`) threaded through every function, so theorems quantify over
  all possible draw sequences.
* Python exceptions (`ZeroDivisionError`, `AttributeError` on `None`,
  `IndexError` from `random.choice` on an empty sequence) are modelled
  with `Except`; since Python mutates objects in place, the error value
  carries the partially updated state that the raising call leaves
  behind.
* The single `Pathogen` instance is shared by reference between
  `World.current_outbreak` and every infected person's `infection`
  field in the Python code.  `Pathogen.mutate` runs only at the very
  end of a day, after every read of pathogen fields for that day, and
  mutates only the gene values and the vector table, so the value
  snapshots stored per person in this embedding agree with every field
  read the Python code performs during a day.
-/

namespace VirusSim

/-- Model of Python's `random` module: a stream of real draws (each
produced by `random.random()`, hence intended in `[0,1)`) and a stream
of natural-number draws backing the integer primitives
(`random.randint`, the index picked by `random.choice`).  Exhausted
streams yield `0`, keeping the model total; theorems quantify over all
streams. -/
structure Rng where
  reals : List ℚ
  nats : List ℕ
deriving Repr, DecidableEq

/-- Next `random.random()` draw. -/
def Rng.nextReal (g : Rng) : ℚ × Rng :=
  (g.reals.headD 0, ⟨g.reals.tail, g.nats⟩)

/-- Next natural draw, backing `random.randint` / `random.choice`. -/
def Rng.nextNat (g : Rng) : ℕ × Rng :=
  (g.nats.headD 0, ⟨g.reals, g.nats.tail⟩)

/-- `random.uniform a b`: `a + u * (b - a)` for one unit draw `u`. -/
def Rng.uniform (g : Rng) (a b : ℚ) : ℚ × Rng :=
  let (u, g1) := g.nextReal
  (a + u * (b - a), g1)

/-- `random.randint a b` (both ends inclusive): one natural draw mapped
into `[a, b]`. -/
def Rng.randint (g : Rng) (a b : ℤ) : ℤ × Rng :=
  let (n, g1) := g.nextNat
  (a + ((n : ℤ) % (b - a + 1)), g1)

/-- A stream is valid when every real draw lies in `[0,1)`, as
`random.random()` guarantees. -/
def Rng.Valid (g : Rng) : Prop :=
  ∀ u ∈ g.reals, 0 ≤ u ∧ u < 1

/-- `HealthStatus` enumeration (`main.py` lines 8-12).  The numeric
values are the Python tags; all four tags are distinct, so the four
members are distinct enum members. -/
inductive HealthStatus where
  | HEALTHY
  | INFECTED
  | RECOVERED
  | DECEASED
deriving Repr, DecidableEq

/-- The Python integer tag of each `HealthStatus` member. -/
def HealthStatus.value : HealthStatus → ℕ
  | .HEALTHY => 0
  | .INFECTED => 10
  | .RECOVERED => 1
  | .DECEASED => 2

/-- `TransmissionType` enumeration (`main.py` lines 14-17).  In Python,
`AIRBORNE = 1`, `SURFACE = 1`, `BLOOD = 2`: two names share the tag `1`,
and Python's `Enum` therefore makes `SURFACE` an *alias* of `AIRBORNE`
(the same member object), so the enum has exactly two distinct members
and `list(TransmissionType)` is `[AIRBORNE, BLOOD]`. -/
inductive TransmissionType where
  | AIRBORNE
  | BLOOD
deriving Repr, DecidableEq, Fintype

/-- `TransmissionType.SURFACE` is an alias of `AIRBORNE`: both names
carry the Python tag `1`. -/
def TransmissionType.SURFACE : TransmissionType := .AIRBORNE

/-- The Python integer tag of each `TransmissionType` member. -/
def TransmissionType.value : TransmissionType → ℕ
  | .AIRBORNE => 1
  | .BLOOD => 2

/-- `list(TransmissionType)`: the distinct enum members, in declaration
order (the alias `SURFACE` does not appear separately). -/
def TransmissionType.allKinds : List TransmissionType :=
  [.AIRBORNE, .BLOOD]

/-- `random.choice` over a list: one natural draw reduced modulo the
length; total via a default for the (raising) empty case, which callers
model explicitly as an `IndexError`. -/
def Rng.choiceIdx (g : Rng) (len : ℕ) : ℕ × Rng :=
  let (n, g1) := g.nextNat
  (n % len, g1)

/-- `np.clip v lo hi`. -/
def clip (v lo hi : ℚ) : ℚ := min (max v lo) hi

/-- The `genes` dict of a pathogen (`main.py` lines 25-30), with its
four fixed trait keys in insertion order. -/
structure Genes where
  environmental_stability : ℚ
  asymptomatic_spread : ℚ
  drug_resistance : ℚ
  zoonotic_potential : ℚ
deriving Repr, DecidableEq

/-- `Pathogen` (`main.py` lines 19-32).  The `transmission_vectors`
dict is an association list (keys unique in any state the program
builds). -/
structure Pathogen where
  name : String
  base_infectivity : ℚ
  severity : ℚ
  mutation_rate : ℚ
  genes : Genes
  transmission_vectors : List (TransmissionType × ℚ)
  detection_chance : ℚ
deriving Repr, DecidableEq

/-- `Pathogen.__init__` (`main.py` lines 20-32). -/
def Pathogen.init (name : String) (base_infectivity severity mutation_rate : ℚ) :
    Pathogen where
  name := name
  base_infectivity := base_infectivity
  severity := severity
  mutation_rate := mutation_rate
  genes :=
    { environmental_stability := 0.5
      asymptomatic_spread := 0.6
      drug_resistance := 0.8
      zoonotic_potential := 0.1 }
  transmission_vectors := [(.AIRBORNE, 0.8)]
  detection_chance := 0.1

/-- Dict access `transmission_vectors.get(t, 0)` / key test: weight of
a carried vector, `0` when not carried. -/
def weightOf (l : List (TransmissionType × ℚ)) (t : TransmissionType) : ℚ :=
  match l with
  | [] => 0
  | (k, w) :: rest => if k = t then w else weightOf rest t

/-- The carried vector kinds, `list(d.keys())`. -/
def keysOf (l : List (TransmissionType × ℚ)) : List TransmissionType :=
  l.map Prod.fst

/-- `Pathogen.get_infectivity` (`main.py` lines 44-45). -/
def Pathogen.get_infectivity (p : Pathogen) (t : TransmissionType) : ℚ :=
  p.base_infectivity * weightOf p.transmission_vectors t

/-- One iteration of the gene loop in `Pathogen.mutate` (`main.py`
lines 35-37): with probability `mutation_rate`, perturb by
`random.uniform(-0.2, 0.2)` and `np.clip` to `[0,1]`. -/
def mutateGene (x rate : ℚ) (g : Rng) : ℚ × Rng :=
  let (u, g1) := g.nextReal
  if u < rate then
    let (d, g2) := g1.uniform (-0.2) 0.2
    (clip (x + d) 0 1, g2)
  else (x, g1)

/-- The vector half of `Pathogen.mutate` (`main.py` lines 39-42): with
probability `mutation_rate / 2`, `random.choice(list(TransmissionType))`
picks a kind; if not already carried it is added with weight `0.3`. -/
def mutateVector (p : Pathogen) (g : Rng) : Pathogen × Rng :=
  let (u, g1) := g.nextReal
  if u < p.mutation_rate / 2 then
    let (i, g2) := g1.choiceIdx TransmissionType.allKinds.length
    let v := TransmissionType.allKinds.getD i .AIRBORNE
    if v ∈ keysOf p.transmission_vectors then (p, g2)
    else ({ p with transmission_vectors := p.transmission_vectors ++ [(v, 0.3)] }, g2)
  else (p, g1)

/-- `Pathogen.mutate` (`main.py` lines 34-42): perturb each gene in
dict insertion order, then possibly add one transmission vector. -/
def Pathogen.mutate (p : Pathogen) (g : Rng) : Pathogen × Rng :=
  let (es, g1) := mutateGene p.genes.environmental_stability p.mutation_rate g
  let (asp, g2) := mutateGene p.genes.asymptomatic_spread p.mutation_rate g1
  let (dr, g3) := mutateGene p.genes.drug_resistance p.mutation_rate g2
  let (zp, g4) := mutateGene p.genes.zoonotic_potential p.mutation_rate g3
  let p1 := { p with genes :=
    { environmental_stability := es
      asymptomatic_spread := asp
      drug_resistance := dr
      zoonotic_potential := zp } }
  mutateVector p1 g4

/-- `n` successive `mutate()` calls threading the draw stream. -/
def Pathogen.mutateN : ℕ → Pathogen → Rng → Pathogen × Rng
  | 0, p, g => (p, g)
  | n + 1, p, g =>
    let (p1, g1) := p.mutate g
    Pathogen.mutateN n p1 g1

/-- `Person` (`main.py` lines 47-57). -/
structure Person where
  x : ℚ
  y : ℚ
  health : HealthStatus
  immunity : ℚ
  infection : Option Pathogen
  symptoms : Bool
  quarantined : Bool
  vaccinated : Bool
  day_infected : ℤ
deriving Repr, DecidableEq

/-- `Person.__init__` (`main.py` lines 48-57). -/
def Person.init (x y : ℚ) : Person where
  x := x
  y := y
  health := .HEALTHY
  immunity := 0
  infection := none
  symptoms := false
  quarantined := false
  vaccinated := false
  day_infected := 0

/-- The Python exceptions the engine can actually raise. -/
inductive SimError where
  | zeroDivision
  | attributeError
  | indexError
deriving Repr, DecidableEq

/-- `Person.update` (`main.py` lines 59-65).  Only an `INFECTED` person
changes: first the mortality roll against `infection.severity * 0.01`
(an `AttributeError` if `infection` is `None`), then on survival the
recovery test `day - day_infected > 14 + randint(-3, 3)`.  The error
case leaves the person untouched: Python raises before mutating. -/
def Person.update (p : Person) (day : ℤ) (g : Rng) :
    Except SimError (Person × Rng) :=
  if p.health = .INFECTED then
    match p.infection with
    | none => .error .attributeError
    | some path =>
      let (u, g1) := g.nextReal
      if u < path.severity * 0.01 then .ok ({ p with health := .DECEASED }, g1)
      else
        let (j, g2) := g1.randint (-3) 3
        if day - p.day_infected > 14 + j then
          .ok ({ p with health := .RECOVERED, immunity := 0.6 }, g2)
        else .ok (p, g2)
  else .ok (p, g)

/-- A city record (`main.py` lines 80-86). -/
structure City where
  position : ℚ × ℚ
  population_density : ℚ
  travel_restrictions : Bool
deriving Repr, DecidableEq

/-- `World` (`main.py` lines 67-78). -/
structure World where
  size : ℚ
  population : List Person
  day : ℤ
  travel_rate : ℚ
  medical_capacity : ℚ
  quarantine_effectiveness : ℚ
  vaccination_rate : ℚ
  current_outbreak : Option Pathogen
  cities : List City
deriving Repr, DecidableEq

/-- One `Person(random.uniform(0, size), random.uniform(0, size))`. -/
def randomPerson (size : ℚ) (g : Rng) : Person × Rng :=
  let (x, g1) := g.uniform 0 size
  let (y, g2) := g1.uniform 0 size
  (Person.init x y, g2)

/-- The population list comprehension of `World.__init__`. -/
def randomPopulation (size : ℚ) : ℕ → Rng → List Person × Rng
  | 0, g => ([], g)
  | n + 1, g =>
    let (p, g1) := randomPerson size g
    let (rest, g2) := randomPopulation size n g1
    (p :: rest, g2)

/-- One city built by `World.init_cities` (`main.py` lines 80-86). -/
def randomCity (size : ℚ) (g : Rng) : City × Rng :=
  let (cx, g1) := g.uniform 0 size
  let (cy, g2) := g1.uniform 0 size
  let (d, g3) := g2.uniform 0.1 0.9
  ({ position := (cx, cy), population_density := d,
     travel_restrictions := false }, g3)

/-- The five-iteration loop of `World.init_cities`. -/
def randomCities (size : ℚ) : ℕ → Rng → List City × Rng
  | 0, g => ([], g)
  | n + 1, g =>
    let (c, g1) := randomCity size g
    let (rest, g2) := randomCities size n g1
    (c :: rest, g2)

/-- `World.__init__` (`main.py` lines 68-78) followed by
`init_cities`. -/
def World.init (size : ℚ) (population : ℕ) (g : Rng) : World × Rng :=
  let (ps, g1) := randomPopulation size population g
  let (cs, g2) := randomCities size 5 g1
  ({ size := size
     population := ps
     day := 0
     travel_rate := 0.09
     medical_capacity := 0.1
     quarantine_effectiveness := 0
     vaccination_rate := 0
     current_outbreak := none
     cities := cs }, g2)

/-- `World.spread_pathogen` (`main.py` lines 88-94).  A `Pathogen`
object is always truthy, so `not self.current_outbreak` holds exactly
when `current_outbreak` is `None`; in that case the outbreak is set
first, then `random.choice(self.population)` picks patient zero (an
`IndexError` on an empty population, raised after `current_outbreak`
was already assigned).  With an outbreak already active the method
falls through and returns normally with nothing changed. -/
def World.spread_pathogen (w : World) (pathogen : Pathogen) (g : Rng) :
    Except (SimError × World × Rng) (World × Rng) :=
  match w.current_outbreak with
  | some _ => .ok (w, g)
  | none =>
    let w1 := { w with current_outbreak := some pathogen }
    match w1.population with
    | [] => .error (.indexError, w1, g)
    | q :: rest =>
      let (i, g1) := g.choiceIdx (q :: rest).length
      let pz := (q :: rest).getD i q
      let pz1 := { pz with health := .INFECTED, infection := some pathogen,
                           day_infected := w1.day }
      .ok ({ w1 with population := (q :: rest).set i pz1 }, g1)

/-- Number of `INFECTED` members of a population. -/
def countInfected (ps : List Person) : ℕ :=
  (ps.filter fun p => p.health = .INFECTED).length

/-- The per-person loop of `apply_public_health_measures` (`main.py`
lines 128-132).  `if person.symptoms and random.random() < qe`
short-circuits, so the branch on `symptoms` is taken first and the
quarantine draw happens only for a symptomatic person; the vaccination
draw always happens. -/
def phmLoop (qe vr : ℚ) : List Person → Rng → List Person × Rng
  | [], g => ([], g)
  | p :: rest, g =>
    if p.symptoms then
      let (u, gq) := g.nextReal
      let p1 := if u < qe then { p with quarantined := true } else p
      let (u2, g2) := gq.nextReal
      let p2 := if u2 < vr / 250 then { p1 with vaccinated := true } else p1
      ((p2 :: (phmLoop qe vr rest g2).1), (phmLoop qe vr rest g2).2)
    else
      let (u2, g2) := g.nextReal
      let p2 := if u2 < vr / 250 then { p with vaccinated := true } else p
      ((p2 :: (phmLoop qe vr rest g2).1), (phmLoop qe vr rest g2).2)

/-- The `infection_rate` expression of `apply_public_health_measures`
(`main.py` line 122); its division is the one that raises
`ZeroDivisionError` on an empty population, which callers model
explicitly. -/
def infectionRate (w : World) : ℚ :=
  (countInfected w.population : ℚ) / (w.population.length : ℚ) * 1.05

/-- The quarantine lever after the ratchet test (`main.py` lines
123-124). -/
def newQE (w : World) : ℚ :=
  if infectionRate w > 0.03 then min 0.5 (w.quarantine_effectiveness + 0.02)
  else w.quarantine_effectiveness

/-- The vaccination lever after the ratchet test (`main.py` lines
125-126). -/
def newVR (w : World) : ℚ :=
  if infectionRate w > 0.1 then min 0.3 (w.vaccination_rate + 0.01)
  else w.vaccination_rate

/-- `World.apply_public_health_measures` (`main.py` lines 121-132).
The `infection_rate` expression divides by `len(self.population)`: on
an empty population Python raises `ZeroDivisionError` before anything
in this method mutates state.  Otherwise the two policy ratchets fire
on strict thresholds and the per-person loop runs with the freshly
updated levers. -/
def World.apply_public_health_measures (w : World) (g : Rng) :
    Except (SimError × World × Rng) (World × Rng) :=
  match w.population with
  | [] => .error (.zeroDivision, w, g)
  | _ :: _ =>
    let qe := newQE w
    let vr := newVR w
    let (ps, g1) := phmLoop qe vr w.population g
    .ok ({ w with quarantine_effectiveness := qe, vaccination_rate := vr,
                  population := ps }, g1)

/-- Prepend an already-processed person to the outcome of the rest of
an in-place per-person loop: whether the tail succeeded or raised, the
processed head keeps its new state (Python mutates in place). -/
def consOut (p : Person)
    (r : Except (SimError × List Person × Rng) (List Person × Rng)) :
    Except (SimError × List Person × Rng) (List Person × Rng) :=
  match r with
  | .ok (rest1, g1) => .ok (p :: rest1, g1)
  | .error (e, rest1, g1) => .error (e, p :: rest1, g1)

/-- The per-person loop of `simulate_travel` (`main.py` lines 134-139).
When the travel roll fires, `random.choice(self.cities)` draws a target
city (unused afterwards; an `IndexError` if `cities` is empty), then
the position is perturbed by `random.uniform(-5, 5)` per axis and
clipped to `[0, size]`.  On an error the persons already processed keep
their new positions. -/
def travelLoop (cities : List City) (size travel_rate : ℚ) :
    List Person → Rng → Except (SimError × List Person × Rng) (List Person × Rng)
  | [], g => .ok ([], g)
  | p :: rest, g =>
    let (u, g1) := g.nextReal
    if u < travel_rate then
      match cities with
      | [] => .error (.indexError, p :: rest, g1)
      | _ :: _ =>
        let (_, g2) := g1.choiceIdx cities.length
        let (dx, g3) := g2.uniform (-5) 5
        let (dy, g4) := g3.uniform (-5) 5
        let p1 := { p with x := clip (p.x + dx) 0 size,
                           y := clip (p.y + dy) 0 size }
        consOut p1 (travelLoop cities size travel_rate rest g4)
    else consOut p (travelLoop cities size travel_rate rest g1)

/-- `World.simulate_travel` (`main.py` lines 134-139). -/
def World.simulate_travel (w : World) (g : Rng) :
    Except (SimError × World × Rng) (World × Rng) :=
  match travelLoop w.cities w.size w.travel_rate w.population g with
  | .ok (ps, g1) => .ok ({ w with population := ps }, g1)
  | .error (e, ps, g1) => .error (e, { w with population := ps }, g1)

/-- The source filter of the transmission pass (`main.py` line 101):
`p.health == INFECTED and not p.quarantined`, evaluated on the
population as it stands when the pass begins. -/
def sourceFilter (ps : List Person) : List Person :=
  ps.filter fun p => p.health = .INFECTED ∧ ¬p.quarantined

/-- The target filter of the transmission pass (`main.py` line 104):
`other.health == HEALTHY and not other.vaccinated`. -/
def targetTest (p : Person) : Bool :=
  p.health = .HEALTHY && !p.vaccinated

/-- For `s ≥ 0` and real `r`, `Real.sqrt s < r ↔ 0 < r ∧ s < r ^ 2`;
this decidable form stands in for the `np.sqrt` comparison on line 109
of `main.py`, taking `s` as the squared distance. -/
def sqrtLt (s r : ℚ) : Bool :=
  0 < r && s < r ^ 2

/-- The body of the transmission inner loop for one (source, target)
pair that passed the target filter (`main.py` lines 105-114): the
vector draw `random.choice(list(...keys()))` always happens (an
`AttributeError` if the source's `infection` is `None`, an `IndexError`
if it carries no vectors — both raised before any mutation); only
within the contact radius is the infection roll made, and only on
success the symptoms roll. -/
def processTarget (src tgt : Person) (day : ℤ) (g : Rng) :
    Except SimError (Person × Rng) :=
  match src.infection with
  | none => .error .attributeError
  | some path =>
    match keysOf path.transmission_vectors with
    | [] => .error .indexError
    | k :: ks =>
      let (i, g1) := g.choiceIdx (k :: ks).length
      let transmission_type := (k :: ks).getD i k
      let infectivity := path.get_infectivity transmission_type
      let distSq := (src.x - tgt.x) ^ 2 + (src.y - tgt.y) ^ 2
      if sqrtLt distSq (1 + path.genes.environmental_stability * 3) then
        let (u, g2) := g1.nextReal
        if u < infectivity * (1 - tgt.immunity) then
          let (s, g3) := g2.nextReal
          .ok ({ tgt with health := .INFECTED, infection := some path,
                          day_infected := day,
                          symptoms := s < path.genes.asymptomatic_spread }, g3)
        else .ok (tgt, g2)
      else .ok (tgt, g1)

/-- The inner loop of the transmission pass for one source (`main.py`
lines 103-114): walk the whole population, handling exactly the agents
that pass the target filter at the moment they are visited. -/
def processSource (src : Person) (day : ℤ) :
    List Person → Rng → Except (SimError × List Person × Rng) (List Person × Rng)
  | [], g => .ok ([], g)
  | t :: rest, g =>
    if targetTest t then
      match processTarget src t day g with
      | .error e => .error (e, t :: rest, g)
      | .ok (t1, g1) => consOut t1 (processSource src day rest g1)
    else consOut t (processSource src day rest g)

/-- The outer loop of the transmission pass over the snapshotted source
list (`main.py` lines 102-114). -/
def processSources (day : ℤ) :
    List Person → List Person → Rng →
    Except (SimError × List Person × Rng) (List Person × Rng)
  | [], ps, g => .ok (ps, g)
  | s :: srcs, ps, g =>
    match processSource s day ps g with
    | .error (e, ps1, g1) => .error (e, ps1, g1)
    | .ok (ps1, g1) => processSources day srcs ps1 g1

/-- The whole transmission pass (`main.py` lines 101-114): the source
list is computed once, from the population as it stands at the start of
the pass; during the pass a source is never itself mutated (a source is
`INFECTED`, hence never passes the `HEALTHY` target filter), so the
snapshotted person values faithfully model the Python object
references. -/
def transmissionPass (ps : List Person) (day : ℤ) (g : Rng) :
    Except (SimError × List Person × Rng) (List Person × Rng) :=
  processSources day (sourceFilter ps) ps g

/-- The `person.update(self)` loop of `World.update` (`main.py` lines
116-117); an error leaves the persons already processed updated and the
rest untouched. -/
def updateLoop (day : ℤ) :
    List Person → Rng → Except (SimError × List Person × Rng) (List Person × Rng)
  | [], g => .ok ([], g)
  | p :: rest, g =>
    match p.update day g with
    | .error e => .error (e, p :: rest, g)
    | .ok (p1, g1) => consOut p1 (updateLoop day rest g1)

/-- `World.update` (`main.py` lines 96-119): increment the day, apply
public-health measures, travel, the transmission pass, the per-person
update loop, and finally `self.current_outbreak.mutate()` — an
`AttributeError` on `None` when no outbreak was ever seeded, raised
after every earlier effect of the day has been applied. -/
def World.update (w : World) (g : Rng) :
    Except (SimError × World × Rng) (World × Rng) :=
  let w0 := { w with day := w.day + 1 }
  match w0.apply_public_health_measures g with
  | .error r => .error r
  | .ok (w1, g1) =>
    match w1.simulate_travel g1 with
    | .error r => .error r
    | .ok (w2, g2) =>
      match transmissionPass w2.population w2.day g2 with
      | .error (e, ps, g3) => .error (e, { w2 with population := ps }, g3)
      | .ok (ps, g3) =>
        let w3 := { w2 with population := ps }
        match updateLoop w3.day w3.population g3 with
        | .error (e, ps1, g4) => .error (e, { w3 with population := ps1 }, g4)
        | .ok (ps1, g4) =>
          let w4 := { w3 with population := ps1 }
          match w4.current_outbreak with
          | none => .error (.attributeError, w4, g4)
          | some path =>
            let (path1, g5) := path.mutate g4
            .ok ({ w4 with current_outbreak := some path1 }, g5)

/-- The world a `World.update` call leaves behind, whether it returns
normally or raises (Python mutates in place, so the partial state of a
raising call persists). -/
def stepOutcome (w : World) (g : Rng) : World × Rng :=
  match w.update g with
  | .ok r => r
  | .error (_, w1, g1) => (w1, g1)

/-- `n` consecutive day steps. -/
def runSteps : ℕ → World → Rng → World × Rng
  | 0, w, g => (w, g)
  | n + 1, w, g =>
    let (w1, g1) := stepOutcome w g
    runSteps n w1 g1

/-! ## Derived definitions, predicates and concrete fixtures -/

/-- The population a per-person loop leaves behind, on success or on a
raising call (Python's in-place mutations persist either way). -/
def popOf (r : Except (SimError × List Person × Rng) (List Person × Rng)) :
    List Person :=
  match r with
  | .ok (ps, _) => ps
  | .error (_, ps, _) => ps

/-- The world a whole-world operation leaves behind, on success or on a
raising call. -/
def worldOf (r : Except (SimError × World × Rng) (World × Rng)) : World :=
  match r with
  | .ok (w, _) => w
  | .error (_, w, _) => w

/-- Every gene value and every transmission-vector weight of the
pathogen lies in `[0, 1]`. -/
def Pathogen.InRange01 (p : Pathogen) : Prop :=
  (0 ≤ p.genes.environmental_stability ∧ p.genes.environmental_stability ≤ 1) ∧
  (0 ≤ p.genes.asymptomatic_spread ∧ p.genes.asymptomatic_spread ≤ 1) ∧
  (0 ≤ p.genes.drug_resistance ∧ p.genes.drug_resistance ≤ 1) ∧
  (0 ≤ p.genes.zoonotic_potential ∧ p.genes.zoonotic_potential ≤ 1) ∧
  ∀ e ∈ p.transmission_vectors, 0 ≤ e.2 ∧ e.2 ≤ 1

/-- The documented ranges of the two policy levers: `[0, 0.5]` for
quarantine effectiveness and `[0, 0.3]` for the vaccination rate. -/
def World.InPolicyRange (w : World) : Prop :=
  0 ≤ w.quarantine_effectiveness ∧ w.quarantine_effectiveness ≤ 0.5 ∧
    0 ≤ w.vaccination_rate ∧ w.vaccination_rate ≤ 0.3

/-- A person fit to act as a transmission source without raising: it
carries a pathogen with a non-empty vector table. -/
def SrcOK (p : Person) : Prop :=
  ∃ pa, p.infection = some pa ∧ keysOf pa.transmission_vectors ≠ []

/-- Every `INFECTED` member of the population carries a pathogen with a
non-empty vector table — true of every population the program itself
builds, since infection always installs the seeded pathogen. -/
def InfOK (ps : List Person) : Prop :=
  ∀ p ∈ ps, p.health = .INFECTED → SrcOK p

/-- The draw stream a per-person loop leaves behind. -/
def rngOf (r : Except (SimError × List Person × Rng) (List Person × Rng)) :
    Rng :=
  match r with
  | .ok (_, g) => g
  | .error (_, _, g) => g

/-- Instrumented inner transmission loop: identical control flow to
`processSource`, additionally recording, in visit order, the pre-state
of every agent that passes the target filter at the moment it is
visited — i.e. every agent for which the body of the `if` on line 104
of `main.py` runs.  `none` on the raising paths. -/
def processSourceLog (src : Person) (day : ℤ) :
    List Person → Rng → Option (List Person × Rng × List Person)
  | [], g => some ([], g, [])
  | t :: rest, g =>
    if targetTest t then
      match processTarget src t day g with
      | .error _ => none
      | .ok (t1, g1) =>
        match processSourceLog src day rest g1 with
        | none => none
        | some (rest1, g2, log) => some (t1 :: rest1, g2, t :: log)
    else
      match processSourceLog src day rest g with
      | none => none
      | some (rest1, g1, log) => some (t :: rest1, g1, log)

/-- Instrumented outer transmission loop: runs `processSourceLog` for
each snapshotted source in order and records the (source, target
pre-state) pairs evaluated. -/
def processSourcesLog (day : ℤ) :
    List Person → List Person → Rng →
    Option (List Person × Rng × List (Person × Person))
  | [], ps, g => some (ps, g, [])
  | s :: srcs, ps, g =>
    match processSourceLog s day ps g with
    | none => none
    | some (ps1, g1, log1) =>
      match processSourcesLog day srcs ps1 g1 with
      | none => none
      | some (ps2, g2, log2) =>
        some (ps2, g2, log1.map (fun t => (s, t)) ++ log2)

/-- The instrumented transmission pass: the source list is the same
snapshot `sourceFilter ps` the real pass uses. -/
def transmissionPassLog (ps : List Person) (day : ℤ) (g : Rng) :
    Option (List Person × Rng × List (Person × Person)) :=
  processSourcesLog day (sourceFilter ps) ps g

/-- Specification of the evaluated-pair log: for each source `s` of the
(fixed) source list in order, the pairs `(s, t)` for exactly the
agents `t` satisfying the target filter in the population state current
when `s` is processed, the state evolving by `processSource`. -/
def PairSpec (day : ℤ) :
    List Person → List Person → Rng → List (Person × Person) → Prop
  | [], _, _, log => log = []
  | s :: srcs, ps, g, log => ∃ ps1 g1 log1,
      processSource s day ps g = .ok (ps1, g1) ∧
      log = (ps.filter targetTest).map (fun t => (s, t)) ++ log1 ∧
      PairSpec day srcs ps1 g1 log1

/-- A pathogen with the constructor's default parameters. -/
def patX : Pathogen := Pathogen.init "X" 0.64 0.26 0.05

/-- A second, distinct pathogen. -/
def patY : Pathogen := Pathogen.init "Y" 0.5 0.1 0.05

/-- A patient zero carrying `patX` since day 0. -/
def personZero : Person :=
  { Person.init 10 10 with health := .INFECTED, infection := some patX }

/-- A world whose outbreak is already active, with `personZero` as the
first outbreak's patient zero. -/
def worldActive : World where
  size := 100
  population := [personZero, Person.init 20 20]
  day := 3
  travel_rate := 0.09
  medical_capacity := 0.1
  quarantine_effectiveness := 0
  vaccination_rate := 0
  current_outbreak := some patX
  cities := []

/-- A recovered person, so not a valid patient zero per the spec. -/
def personRec : Person :=
  { Person.init 5 5 with health := .RECOVERED, immunity := 0.6 }

/-- A world with no outbreak and no `HEALTHY` agent at all. -/
def worldRec : World where
  size := 100
  population := [personRec]
  day := 2
  travel_rate := 0.09
  medical_capacity := 0.1
  quarantine_effectiveness := 0
  vaccination_rate := 0
  current_outbreak := none
  cities := []

/-- The world the code actually produces when seeding `worldRec`: its
single `RECOVERED` agent has been turned into patient zero. -/
def worldRecSeeded : World :=
  { worldRec with
      current_outbreak := some patX,
      population := [{ personRec with
                         health := .INFECTED,
                         infection := some patX,
                         day_infected := 2 }] }

/-- A concrete city. -/
def cityA : City where
  position := (1, 1)
  population_density := 0.5
  travel_restrictions := false

/-- A healthy one-agent world with a city but no outbreak seeded. -/
def worldNoOutbreak : World where
  size := 100
  population := [Person.init 1 1]
  day := 0
  travel_rate := 0.09
  medical_capacity := 0.1
  quarantine_effectiveness := 0
  vaccination_rate := 0
  current_outbreak := none
  cities := [cityA]

/-- A world with an empty population. -/
def worldEmpty : World where
  size := 100
  population := []
  day := 0
  travel_rate := 0.09
  medical_capacity := 0.1
  quarantine_effectiveness := 0
  vaccination_rate := 0
  current_outbreak := none
  cities := []

/-- An infected person used by the C3 witness: severity-0 pathogen,
infected on day 0. -/
def personScen : Person :=
  { Person.init 0 0 with
      health := .INFECTED,
      infection := some { patX with severity := 0 } }

/-! ## The clamping invariant -/

theorem clip01_mem (v : ℚ) : 0 ≤ clip v 0 1 ∧ clip v 0 1 ≤ 1 := by
  unfold clip
  constructor
  · exact le_min (le_max_right v 0) zero_le_one
  · exact min_le_right _ _

theorem mutateGene_mem (x rate : ℚ) (g : Rng) (hx : 0 ≤ x ∧ x ≤ 1) :
    0 ≤ (mutateGene x rate g).1 ∧ (mutateGene x rate g).1 ≤ 1 := by
  unfold mutateGene
  dsimp only
  split
  · exact clip01_mem _
  · exact hx

theorem mutateVector_range (p : Pathogen) (g : Rng) (hp : p.InRange01) :
    (mutateVector p g).1.InRange01 := by
  unfold mutateVector
  dsimp only
  obtain ⟨h1, h2, h3, h4, hv⟩ := hp
  split
  · split
    · exact ⟨h1, h2, h3, h4, hv⟩
    · refine ⟨h1, h2, h3, h4, ?_⟩
      intro e he
      rcases List.mem_append.1 he with h | h
      · exact hv e h
      · rcases List.mem_singleton.1 h with rfl
        norm_num
  · exact ⟨h1, h2, h3, h4, hv⟩

theorem mutate_range (p : Pathogen) (g : Rng) (hp : p.InRange01) :
    (p.mutate g).1.InRange01 := by
  obtain ⟨h1, h2, h3, h4, hv⟩ := hp
  unfold Pathogen.mutate
  dsimp only
  exact mutateVector_range _ _
    ⟨mutateGene_mem _ _ _ ⟨h1.1, h1.2⟩, mutateGene_mem _ _ _ ⟨h2.1, h2.2⟩,
     mutateGene_mem _ _ _ ⟨h3.1, h3.2⟩, mutateGene_mem _ _ _ ⟨h4.1, h4.2⟩, hv⟩

theorem mutateN_succ (n : ℕ) (p : Pathogen) (g : Rng) :
    Pathogen.mutateN (n + 1) p g = Pathogen.mutateN n (p.mutate g).1 (p.mutate g).2 := rfl

theorem mutateN_range (n : ℕ) (p : Pathogen) (g : Rng) (hp : p.InRange01) :
    (Pathogen.mutateN n p g).1.InRange01 := by
  induction n generalizing p g with
  | zero => exact hp
  | succ n ih =>
    rw [mutateN_succ]
    exact ih _ _ (mutate_range p g hp)

theorem init_range (name : String) (bi sev mr : ℚ) :
    (Pathogen.init name bi sev mr).InRange01 := by
  refine ⟨by norm_num [Pathogen.init], by norm_num [Pathogen.init],
    by norm_num [Pathogen.init], by norm_num [Pathogen.init], ?_⟩
  intro e he
  simp only [Pathogen.init, List.mem_singleton] at he
  subst he
  norm_num

/-- C4.  For every pathogen built by the constructor and every sequence
of random draws, after any number of `mutate()` calls every gene value
and every transmission-vector weight lies within `[0, 1]`. -/
theorem mutate_clamping_invariant (name : String) (bi sev mr : ℚ)
    (n : ℕ) (g : Rng) :
    (Pathogen.mutateN n (Pathogen.init name bi sev mr) g).1.InRange01 :=
  mutateN_range n _ g (init_range name bi sev mr)

/-! ## Outbreak seeding (`World.spread_pathogen`) -/

/-- Counterexample to C1 as stated: on a concrete world with an active
outbreak, a second `spread_pathogen` call returns normally — no
`InvalidStateError` (indeed no error of any kind) is signalled; the
world, patient zero included, comes back verbatim. -/
theorem seed_twice_returns_normally_counterexample :
    World.spread_pathogen worldActive patY ⟨[], [0]⟩ =
      .ok (worldActive, ⟨[], [0]⟩) := rfl

/-- C1 (amended).  With an outbreak already active, `spread_pathogen`
is a silent no-op: it signals no error at all and returns with every
piece of world state — the first outbreak's patient zero included —
unchanged. -/
theorem seed_twice_silent_noop (w : World) (pt : Pathogen) (g : Rng)
    (h : w.current_outbreak.isSome) :
    w.spread_pathogen pt g = .ok (w, g) := by
  rcases ho : w.current_outbreak with _ | pa
  · rw [ho] at h; simp at h
  · unfold World.spread_pathogen
    rw [ho]

/-- Witness for `seed_twice_silent_noop` at a concrete world. -/
theorem seed_twice_silent_noop_witness :
    worldActive.current_outbreak.isSome = true ∧
      worldActive.spread_pathogen patY ⟨[0.5], [1]⟩ =
        .ok (worldActive, ⟨[0.5], [1]⟩) :=
  ⟨rfl, seed_twice_silent_noop worldActive patY ⟨[0.5], [1]⟩ rfl⟩

/-- Counterexample to C6 as stated: `spread_pathogen` draws patient
zero from the *entire* population, not from the `HEALTHY` agents.  On a
world whose only agent is `RECOVERED`, the code happily selects and
infects that agent instead of signalling the absence of a valid
patient zero. -/
theorem seed_selects_nonhealthy_counterexample :
    worldRec.population.map Person.health = [.RECOVERED] ∧
      worldRec.spread_pathogen patX ⟨[], [0]⟩ =
        .ok (worldRecSeeded, ⟨[], []⟩) :=
  ⟨rfl, rfl⟩

theorem spread_pathogen_cons (w : World) (pt : Pathogen) (g : Rng)
    (q : Person) (rest : List Person)
    (h0 : w.current_outbreak = none) (hp : w.population = q :: rest) :
    w.spread_pathogen pt g =
      .ok ({ w with
               current_outbreak := some pt,
               population := (q :: rest).set
                 ((g.choiceIdx (q :: rest).length).1)
                 { (q :: rest).getD ((g.choiceIdx (q :: rest).length).1) q with
                     health := .INFECTED,
                     infection := some pt,
                     day_infected := w.day } },
            (g.choiceIdx (q :: rest).length).2) := by
  unfold World.spread_pathogen
  rw [h0]
  simp only [hp]

/-- C6 (amended).  On its first call (no active outbreak, non-empty
population), `spread_pathogen` selects one agent at random from the
*whole population* (not merely the `HEALTHY` agents), sets that agent's
health to `INFECTED`, its infection reference to the given pathogen and
its `day_infected` to the current world day, leaves every other agent
and every other world field unchanged, and records the pathogen as
`current_outbreak`. -/
theorem seed_outbreak_first_call (w : World) (pt : Pathogen) (g : Rng)
    (h0 : w.current_outbreak = none) (hne : w.population ≠ []) :
    ∃ w1 g1 i, i < w.population.length ∧
      w.spread_pathogen pt g = .ok (w1, g1) ∧
      w1.current_outbreak = some pt ∧
      w1.population.length = w.population.length ∧
      (∀ j, j ≠ i → w1.population[j]? = w.population[j]?) ∧
      w1.population[i]? = (w.population[i]?).map
        (fun p0 => { p0 with health := .INFECTED, infection := some pt,
                             day_infected := w.day }) ∧
      w1.day = w.day ∧ w1.size = w.size ∧ w1.travel_rate = w.travel_rate ∧
      w1.quarantine_effectiveness = w.quarantine_effectiveness ∧
      w1.vaccination_rate = w.vaccination_rate ∧ w1.cities = w.cities := by
  rcases hp : w.population with _ | ⟨q, rest⟩
  · exact absurd hp hne
  · have hlen : (g.choiceIdx (q :: rest).length).1 < (q :: rest).length :=
      Nat.mod_lt _ (by simp)
    refine ⟨{ w with
                current_outbreak := some pt,
                population := (q :: rest).set
                  ((g.choiceIdx (q :: rest).length).1)
                  { (q :: rest).getD ((g.choiceIdx (q :: rest).length).1) q with
                      health := .INFECTED,
                      infection := some pt,
                      day_infected := w.day } },
      (g.choiceIdx (q :: rest).length).2,
      (g.choiceIdx (q :: rest).length).1, ?_, ?_, rfl, ?_, ?_, ?_,
      rfl, rfl, rfl, rfl, rfl, rfl⟩
    · exact hlen
    · exact spread_pathogen_cons w pt g q rest h0 hp
    · simp [hp]
    · intro j hj
      simp only [hp]
      exact List.getElem?_set_ne (Ne.symm hj)
    · simp only [hp]
      have hgd : (q :: rest).getD ((g.choiceIdx (q :: rest).length).1) q =
          (q :: rest)[(g.choiceIdx (q :: rest).length).1] := by
        rw [List.getD_eq_getElem?_getD, List.getElem?_eq_getElem hlen]
        rfl
      rw [List.getElem?_set_self hlen, List.getElem?_eq_getElem hlen, hgd]
      rfl

/-- Witness for `seed_outbreak_first_call` on a concrete fresh world. -/
theorem seed_outbreak_first_call_witness :
    worldRec.current_outbreak = none ∧ worldRec.population ≠ [] ∧
      (∃ w1 g1 i, i < worldRec.population.length ∧
        worldRec.spread_pathogen patX ⟨[], [0]⟩ = .ok (w1, g1) ∧
        w1.current_outbreak = some patX ∧
        w1.population.length = worldRec.population.length ∧
        (∀ j, j ≠ i → w1.population[j]? = worldRec.population[j]?) ∧
        w1.population[i]? = (worldRec.population[i]?).map
          (fun p0 => { p0 with health := .INFECTED, infection := some patX,
                               day_infected := worldRec.day }) ∧
        w1.day = worldRec.day ∧ w1.size = worldRec.size ∧
        w1.travel_rate = worldRec.travel_rate ∧
        w1.quarantine_effectiveness = worldRec.quarantine_effectiveness ∧
        w1.vaccination_rate = worldRec.vaccination_rate ∧
        w1.cities = worldRec.cities) :=
  ⟨rfl, by simp [worldRec],
    seed_outbreak_first_call worldRec patX ⟨[], [0]⟩ rfl (by simp [worldRec])⟩

/-! ## Agent health progression (`Person.update`) -/

theorem person_update_eq (p : Person) (day : ℤ) (g : Rng) (pa : Pathogen)
    (hh : p.health = .INFECTED) (hi : p.infection = some pa) :
    p.update day g =
      (let (u, g1) := g.nextReal
       if u < pa.severity * 0.01 then .ok ({ p with health := .DECEASED }, g1)
       else
         let (j, g2) := g1.randint (-3) 3
         if day - p.day_infected > 14 + j then
           .ok ({ p with health := .RECOVERED, immunity := 0.6 }, g2)
         else .ok (p, g2)) := by
  unfold Person.update
  rw [if_pos hh, hi]

/-- C3.  An `INFECTED` agent first rolls mortality with probability
`severity × 0.01` (transition to `DECEASED`), and only on survival
rolls recovery: it becomes `RECOVERED` with `immunity = 0.6` iff
`day − day_infected > 14 + jitter` for a fresh `randint(-3, 3)` jitter,
staying `INFECTED` otherwise.  In particular (last conjunct), with
`day_infected = 0`, `day = 20` and severity `0`, the agent becomes
`RECOVERED` with immunity `0.6` whatever the jitter draw. -/
theorem person_update_infected (p : Person) (day : ℤ) (g : Rng) (pa : Pathogen)
    (hh : p.health = .INFECTED) (hi : p.infection = some pa) :
    ((g.nextReal.1 < pa.severity * 0.01 →
        p.update day g = .ok ({ p with health := .DECEASED }, g.nextReal.2)) ∧
      (¬ g.nextReal.1 < pa.severity * 0.01 →
        ∃ j g2, g.nextReal.2.randint (-3) 3 = (j, g2) ∧ -3 ≤ j ∧ j ≤ 3 ∧
          (day - p.day_infected > 14 + j →
            p.update day g =
              .ok ({ p with health := .RECOVERED, immunity := 0.6 }, g2)) ∧
          (¬ day - p.day_infected > 14 + j →
            p.update day g = .ok (p, g2)))) ∧
      (pa.severity = 0 → p.day_infected = 0 → day = 20 → 0 ≤ g.nextReal.1 →
        ∃ g2, p.update day g =
          .ok ({ p with health := .RECOVERED, immunity := 0.6 }, g2)) := by
  have he := person_update_eq p day g pa hh hi
  rcases hg : g.nextReal with ⟨u, g1⟩
  rcases hr : g1.randint (-3) 3 with ⟨j, g2⟩
  simp only [hg, hr] at he
  have hjb : -3 ≤ j ∧ j ≤ 3 := by
    have h1 := congrArg Prod.fst hr
    simp only [Rng.randint, Rng.nextNat] at h1
    have h2 : (0 : ℤ) ≤ (g1.nats.headD 0 : ℤ) % (3 - (-3) + 1) :=
      Int.emod_nonneg _ (by norm_num)
    have h3 : ((g1.nats.headD 0 : ℤ) % (3 - (-3) + 1)) < 7 :=
      Int.emod_lt_of_pos _ (by norm_num)
    omega
  refine ⟨⟨fun hu => ?_, fun hu => ⟨j, g2, rfl, hjb.1, hjb.2, fun hd => ?_,
    fun hd => ?_⟩⟩, fun hs hd0 hday hu => ?_⟩
  · rw [he, if_pos hu]
  · rw [he, if_neg hu, if_pos hd]
  · rw [he, if_neg hu, if_neg hd]
  · have hu' : ¬ u < pa.severity * 0.01 := by
      rw [hs]
      norm_num
      exact hu
    have hd : day - p.day_infected > 14 + j := by
      rw [hd0, hday]
      omega
    exact ⟨g2, by rw [he, if_neg hu', if_pos hd]⟩

/-- Witness for `person_update_infected`: the concrete scenario agent,
evaluated at day 20 with an arbitrary concrete draw stream, recovers
with immunity `0.6`. -/
theorem person_update_infected_witness :
    personScen.health = .INFECTED ∧
      personScen.infection = some { patX with severity := 0 } ∧
      ∃ g2, personScen.update 20 ⟨[0.37], [5]⟩ =
        .ok ({ personScen with health := .RECOVERED, immunity := 0.6 }, g2) :=
  ⟨rfl, by rfl,
    (person_update_infected personScen 20 ⟨[0.37], [5]⟩
        { patX with severity := 0 } rfl (by rfl)).2
      rfl rfl rfl (by norm_num [Rng.nextReal])⟩

/-! ## The vector half of `Pathogen.mutate` -/

theorem weightOf_append_of_mem (l l' : List (TransmissionType × ℚ))
    (v : TransmissionType) (hv : v ∈ keysOf l) :
    weightOf (l ++ l') v = weightOf l v := by
  induction l with
  | nil => simp [keysOf] at hv
  | cons e rest ih =>
    by_cases h : e.1 = v
    · simp only [List.cons_append, weightOf, h, if_pos]
    · simp only [keysOf, List.map_cons, List.mem_cons] at hv
      rcases hv with hv | hv
      · exact absurd hv.symm h
      · simp only [List.cons_append, weightOf, h, if_neg, ite_false]
        exact ih hv

theorem getD_mem {α : Type} (l : List α) (i : ℕ) (d : α) (h : i < l.length) :
    l.getD i d ∈ l := by
  rw [List.getD_eq_getElem?_getD, List.getElem?_eq_getElem h]
  exact List.getElem_mem h

theorem mutateVector_eq (q : Pathogen) (h : Rng) :
    mutateVector q h =
      if h.nextReal.1 < q.mutation_rate / 2 then
        if TransmissionType.allKinds.getD
              (h.nextReal.2.choiceIdx TransmissionType.allKinds.length).1
              .AIRBORNE ∈ keysOf q.transmission_vectors then
          (q, (h.nextReal.2.choiceIdx TransmissionType.allKinds.length).2)
        else
          ({ q with transmission_vectors := q.transmission_vectors ++
               [(TransmissionType.allKinds.getD
                   (h.nextReal.2.choiceIdx TransmissionType.allKinds.length).1
                   .AIRBORNE, 0.3)] },
            (h.nextReal.2.choiceIdx TransmissionType.allKinds.length).2)
      else (q, h.nextReal.2) := rfl

/-- The vector table of a mutated pathogen: either untouched, or
extended at the back by one new kind at weight `0.3`. -/
theorem mutateVector_tv (q : Pathogen) (h : Rng) :
    (mutateVector q h).1.transmission_vectors = q.transmission_vectors ∨
      ∃ v, v ∈ TransmissionType.allKinds ∧ v ∉ keysOf q.transmission_vectors ∧
        (mutateVector q h).1.transmission_vectors =
          q.transmission_vectors ++ [(v, 0.3)] := by
  rw [mutateVector_eq]
  split
  · split
    · exact Or.inl rfl
    · refine Or.inr ⟨_, getD_mem _ _ _ ?_, by assumption, rfl⟩
      exact Nat.mod_lt _ (by simp [TransmissionType.allKinds])
  · exact Or.inl rfl

theorem mutate_tv (p : Pathogen) (g : Rng) :
    (p.mutate g).1.transmission_vectors = p.transmission_vectors ∨
      ∃ v, v ∈ TransmissionType.allKinds ∧ v ∉ keysOf p.transmission_vectors ∧
        (p.mutate g).1.transmission_vectors =
          p.transmission_vectors ++ [(v, 0.3)] := by
  unfold Pathogen.mutate
  dsimp only
  exact mutateVector_tv _ _

theorem dedup_length_le_two (l : List TransmissionType) :
    l.dedup.length ≤ 2 :=
  le_trans (List.Nodup.length_le_card (List.nodup_dedup l)) (by decide)

/-- C8.  The vector half of every `mutate()` call: (i) the two Python
names `AIRBORNE` and `SURFACE` share the integer tag `1` and collapse
into one enum member, so the draw universe `list(TransmissionType)` has
exactly the two effective kinds; (ii) with probability
`mutation_rate / 2` one kind is drawn from that universe and, if not
already carried, appended with weight `0.3`, otherwise nothing changes;
(iii) `mutate` never removes a carried vector entry and never changes
the weight of an already-carried kind; (iv) a pathogen never carries
more than two distinct vector kinds. -/
theorem mutate_vector_phase :
    (TransmissionType.SURFACE = TransmissionType.AIRBORNE ∧
        TransmissionType.SURFACE.value = 1 ∧
        TransmissionType.allKinds = [.AIRBORNE, .BLOOD]) ∧
      (∀ (q : Pathogen) (h : Rng),
        (¬ h.nextReal.1 < q.mutation_rate / 2 →
          mutateVector q h = (q, h.nextReal.2)) ∧
        (h.nextReal.1 < q.mutation_rate / 2 →
          ∃ v g2, v ∈ TransmissionType.allKinds ∧
            (v ∈ keysOf q.transmission_vectors → mutateVector q h = (q, g2)) ∧
            (v ∉ keysOf q.transmission_vectors →
              mutateVector q h =
                ({ q with transmission_vectors :=
                     q.transmission_vectors ++ [(v, 0.3)] }, g2)))) ∧
      (∀ (p : Pathogen) (g : Rng) (e : TransmissionType × ℚ),
        e ∈ p.transmission_vectors → e ∈ (p.mutate g).1.transmission_vectors) ∧
      (∀ (p : Pathogen) (g : Rng) (v : TransmissionType),
        v ∈ keysOf p.transmission_vectors →
          weightOf (p.mutate g).1.transmission_vectors v =
            weightOf p.transmission_vectors v) ∧
      (∀ (p : Pathogen) (g : Rng),
        (keysOf (p.mutate g).1.transmission_vectors).dedup.length ≤ 2) := by
  refine ⟨⟨rfl, rfl, rfl⟩, fun q h => ⟨fun hu => ?_, fun hu => ?_⟩,
    fun p g e he => ?_, fun p g v hv => ?_, fun p g => ?_⟩
  · rw [mutateVector_eq, if_neg hu]
  · refine ⟨TransmissionType.allKinds.getD
        ((h.nextReal.2.choiceIdx TransmissionType.allKinds.length).1) .AIRBORNE,
      (h.nextReal.2.choiceIdx TransmissionType.allKinds.length).2,
      getD_mem _ _ _ (Nat.mod_lt _ (by simp [TransmissionType.allKinds])),
      fun hmem => ?_, fun hmem => ?_⟩
    · rw [mutateVector_eq, if_pos hu, if_pos hmem]
    · rw [mutateVector_eq, if_pos hu, if_neg hmem]
  · rcases mutate_tv p g with h1 | ⟨v, _, _, h1⟩
    · rw [h1]; exact he
    · rw [h1]; exact List.mem_append_left _ he
  · rcases mutate_tv p g with h1 | ⟨v', _, _, h1⟩
    · rw [h1]
    · rw [h1]; exact weightOf_append_of_mem _ _ _ hv
  · exact dedup_length_le_two _

/-- Witness for `mutate_vector_phase`: concrete instances of its
conditional conjuncts. -/
theorem mutate_vector_phase_witness :
    (¬ (Rng.mk [0.9] [0]).nextReal.1 < patX.mutation_rate / 2 ∧
        mutateVector patX ⟨[0.9], [0]⟩ = (patX, ⟨[], [0]⟩)) ∧
      patX.genes.environmental_stability ∈
        Set.Icc (0 : ℚ) 1 ∧
      (.AIRBORNE, (0.8 : ℚ)) ∈ (patX.mutate ⟨[0.9, 0.9, 0.9, 0.9, 0.9], [0]⟩).1.transmission_vectors := by
  refine ⟨⟨by norm_num [Rng.nextReal, patX, Pathogen.init], ?_⟩,
    by norm_num [patX, Pathogen.init], ?_⟩
  · exact (mutate_vector_phase.2.1 patX ⟨[0.9], [0]⟩).1
      (by norm_num [Rng.nextReal, patX, Pathogen.init])
  · exact mutate_vector_phase.2.2.1 patX ⟨[0.9, 0.9, 0.9, 0.9, 0.9], [0]⟩
      (.AIRBORNE, 0.8) (by rw [show patX.transmission_vectors = [(.AIRBORNE, 0.8)] from rfl]; simp)

/-! ## Stage lemmas for the day-step pipeline -/

theorem popOf_consOut (p : Person)
    (r : Except (SimError × List Person × Rng) (List Person × Rng)) :
    popOf (consOut p r) = p :: popOf r := by
  rcases r with ⟨e, ps1, g1⟩ | ⟨ps1, g1⟩ <;> rfl

theorem phmLoop_health (qe vr : ℚ) (ps : List Person) (g : Rng) :
    ((phmLoop qe vr ps g).1).map Person.health = ps.map Person.health := by
  induction ps generalizing g with
  | nil => rfl
  | cons p rest ih =>
    by_cases hs : p.symptoms <;>
      simp only [phmLoop, hs, Rng.nextReal, if_true, if_false, List.map_cons] <;>
      split_ifs <;> simp [ih]

theorem phmLoop_infection (qe vr : ℚ) (ps : List Person) (g : Rng) :
    ((phmLoop qe vr ps g).1).map Person.infection = ps.map Person.infection := by
  induction ps generalizing g with
  | nil => rfl
  | cons p rest ih =>
    by_cases hs : p.symptoms <;>
      simp only [phmLoop, hs, Rng.nextReal, if_true, if_false, List.map_cons] <;>
      split_ifs <;> simp [ih]

theorem travelLoop_health (cities : List City) (size tr : ℚ)
    (ps : List Person) (g : Rng) :
    (popOf (travelLoop cities size tr ps g)).map Person.health =
      ps.map Person.health := by
  induction ps generalizing g with
  | nil => rfl
  | cons p rest ih =>
    simp only [travelLoop, Rng.nextReal, Rng.uniform, Rng.choiceIdx, Rng.nextNat]
    split_ifs with hu
    · cases cities with
      | nil => rfl
      | cons c cs => simp [popOf_consOut, ih]
    · simp [popOf_consOut, ih]

theorem travelLoop_infection (cities : List City) (size tr : ℚ)
    (ps : List Person) (g : Rng) :
    (popOf (travelLoop cities size tr ps g)).map Person.infection =
      ps.map Person.infection := by
  induction ps generalizing g with
  | nil => rfl
  | cons p rest ih =>
    simp only [travelLoop, Rng.nextReal, Rng.uniform, Rng.choiceIdx, Rng.nextNat]
    split_ifs with hu
    · cases cities with
      | nil => rfl
      | cons c cs => simp [popOf_consOut, ih]
    · simp [popOf_consOut, ih]

theorem person_update_not_infected (p : Person) (day : ℤ) (g : Rng)
    (h : p.health ≠ .INFECTED) : p.update day g = .ok (p, g) := by
  unfold Person.update
  rw [if_neg h]

theorem updateLoop_length (day : ℤ) (ps : List Person) (g : Rng) :
    (popOf (updateLoop day ps g)).length = ps.length := by
  induction ps generalizing g with
  | nil => rfl
  | cons p rest ih =>
    simp only [updateLoop]
    rcases hr : p.update day g with e | ⟨p1, g1⟩
    · rfl
    · simp [popOf_consOut, ih]

theorem updateLoop_untouched (day : ℤ) (ps : List Person) (g : Rng)
    (i : ℕ) (p0 : Person) (hp : ps[i]? = some p0)
    (h : p0.health ≠ .INFECTED) :
    (popOf (updateLoop day ps g))[i]? = some p0 := by
  induction ps generalizing g i with
  | nil => simp at hp
  | cons p rest ih =>
    cases i with
    | zero =>
      simp only [List.getElem?_cons_zero, Option.some_inj] at hp
      subst hp
      simp only [updateLoop, person_update_not_infected _ day g h,
        popOf_consOut]
      simp
    | succ j =>
      simp only [List.getElem?_cons_succ] at hp
      simp only [updateLoop]
      rcases hr : p.update day g with e | ⟨p1, g1⟩
      · simpa [popOf] using hp
      · simp only [popOf_consOut, List.getElem?_cons_succ]
        exact ih g1 j hp

theorem processSource_length (src : Person) (day : ℤ)
    (ps : List Person) (g : Rng) :
    (popOf (processSource src day ps g)).length = ps.length := by
  induction ps generalizing g with
  | nil => rfl
  | cons t rest ih =>
    simp only [processSource]
    split_ifs with ht
    · rcases hr : processTarget src t day g with e | ⟨t1, g1⟩
      · rfl
      · simp [popOf_consOut, ih]
    · simp [popOf_consOut, ih]

theorem processSource_untouched (src : Person) (day : ℤ)
    (ps : List Person) (g : Rng) (i : ℕ) (p0 : Person)
    (hp : ps[i]? = some p0) (h : targetTest p0 = false) :
    (popOf (processSource src day ps g))[i]? = some p0 := by
  induction ps generalizing g i with
  | nil => simp at hp
  | cons t rest ih =>
    cases i with
    | zero =>
      simp only [List.getElem?_cons_zero, Option.some_inj] at hp
      subst hp
      simp only [processSource, h, Bool.false_eq_true, if_false, popOf_consOut]
      simp
    | succ j =>
      simp only [List.getElem?_cons_succ] at hp
      simp only [processSource]
      split_ifs with ht
      · rcases hr : processTarget src t day g with e | ⟨t1, g1⟩
        · simpa [popOf] using hp
        · simp only [popOf_consOut, List.getElem?_cons_succ]
          exact ih g1 j hp
      · simp only [popOf_consOut, List.getElem?_cons_succ]
        exact ih g j hp

theorem processSources_length (day : ℤ) (srcs ps : List Person) (g : Rng) :
    (popOf (processSources day srcs ps g)).length = ps.length := by
  induction srcs generalizing ps g with
  | nil => rfl
  | cons s rest ih =>
    simp only [processSources]
    rcases hr : processSource s day ps g with ⟨e, ps1, g1⟩ | ⟨ps1, g1⟩
    · have := processSource_length s day ps g
      rw [hr] at this
      simpa [popOf] using this
    · have := processSource_length s day ps g
      rw [hr] at this
      simp only [popOf] at this
      rw [ih ps1 g1, this]

theorem processSources_untouched (day : ℤ) (srcs ps : List Person) (g : Rng)
    (i : ℕ) (p0 : Person) (hp : ps[i]? = some p0)
    (h : targetTest p0 = false) :
    (popOf (processSources day srcs ps g))[i]? = some p0 := by
  induction srcs generalizing ps g with
  | nil => simpa [popOf] using hp
  | cons s rest ih =>
    simp only [processSources]
    have hone := processSource_untouched s day ps g i p0 hp h
    rcases hr : processSource s day ps g with ⟨e, ps1, g1⟩ | ⟨ps1, g1⟩
    · rw [hr] at hone
      simpa [popOf] using hone
    · rw [hr] at hone
      simp only [popOf] at hone
      exact ih ps1 g1 hone

theorem apply_phm_empty (w : World) (g : Rng) (h : w.population = []) :
    w.apply_public_health_measures g = .error (.zeroDivision, w, g) := by
  unfold World.apply_public_health_measures
  simp only [h]

theorem apply_phm_cons (w : World) (g : Rng) (h : w.population ≠ []) :
    w.apply_public_health_measures g =
      .ok ({ w with
               quarantine_effectiveness := newQE w,
               vaccination_rate := newVR w,
               population := (phmLoop (newQE w) (newVR w) w.population g).1 },
           (phmLoop (newQE w) (newVR w) w.population g).2) := by
  rcases hp : w.population with _ | ⟨q, rest⟩
  · exact absurd hp h
  · unfold World.apply_public_health_measures
    simp only [hp]

theorem simulate_travel_shape (w : World) (g : Rng) :
    ∃ ps g1, w.simulate_travel g = .ok ({ w with population := ps }, g1) ∨
      ∃ e, w.simulate_travel g = .error (e, { w with population := ps }, g1) := by
  unfold World.simulate_travel
  rcases travelLoop w.cities w.size w.travel_rate w.population g with
    ⟨e, ps, g1⟩ | ⟨ps, g1⟩
  · exact ⟨ps, g1, Or.inr ⟨e, rfl⟩⟩
  · exact ⟨ps, g1, Or.inl rfl⟩

theorem newQE_bounds (w : World)
    (h0 : 0 ≤ w.quarantine_effectiveness)
    (h1 : w.quarantine_effectiveness ≤ 0.5) :
    w.quarantine_effectiveness ≤ newQE w ∧ 0 ≤ newQE w ∧ newQE w ≤ 0.5 := by
  unfold newQE
  split_ifs with hc
  · exact ⟨le_min h1 (by linarith), le_min (by norm_num) (by linarith),
      min_le_left _ _⟩
  · exact ⟨le_refl _, h0, h1⟩

theorem newVR_bounds (w : World)
    (h0 : 0 ≤ w.vaccination_rate) (h1 : w.vaccination_rate ≤ 0.3) :
    w.vaccination_rate ≤ newVR w ∧ 0 ≤ newVR w ∧ newVR w ≤ 0.3 := by
  unfold newVR
  split_ifs with hc
  · exact ⟨le_min h1 (by linarith), le_min (by norm_num) (by linarith),
      min_le_left _ _⟩
  · exact ⟨le_refl _, h0, h1⟩

theorem update_policy (w : World) (g : Rng) (hw : w.InPolicyRange) :
    (worldOf (w.update g)).InPolicyRange ∧
      w.quarantine_effectiveness ≤
        (worldOf (w.update g)).quarantine_effectiveness ∧
      w.vaccination_rate ≤ (worldOf (w.update g)).vaccination_rate := by
  obtain ⟨hq0, hq1, hv0, hv1⟩ := hw
  by_cases hp : w.population = []
  · have hA := apply_phm_empty { w with day := w.day + 1 } g (by simpa using hp)
    unfold World.update
    simp only [hA]
    exact ⟨⟨hq0, hq1, hv0, hv1⟩, le_refl _, le_refl _⟩
  · have hA := apply_phm_cons { w with day := w.day + 1 } g (by simpa using hp)
    have hq := newQE_bounds { w with day := w.day + 1 } hq0 hq1
    have hv := newVR_bounds { w with day := w.day + 1 } hv0 hv1
    unfold World.update
    simp only [hA]
    obtain ⟨ps, g2, hT⟩ := simulate_travel_shape
      { w with
          day := w.day + 1,
          quarantine_effectiveness := newQE { w with day := w.day + 1 },
          vaccination_rate := newVR { w with day := w.day + 1 },
          population := (phmLoop (newQE { w with day := w.day + 1 })
            (newVR { w with day := w.day + 1 })
            ({ w with day := w.day + 1 } : World).population g).1 }
      ((phmLoop (newQE { w with day := w.day + 1 })
        (newVR { w with day := w.day + 1 })
        ({ w with day := w.day + 1 } : World).population g).2)
    rcases hT with hT | ⟨e, hT⟩
    · simp only [hT]
      rcases hTr : transmissionPass ps (w.day + 1)  g2 with ⟨e3, ps3, g3⟩ | ⟨ps3, g3⟩
      · simp only [hTr]
        exact ⟨⟨hq.2.1, hq.2.2, hv.2.1, hv.2.2⟩, hq.1, hv.1⟩
      · simp only [hTr]
        rcases hU : updateLoop (w.day + 1) ps3 g3 with ⟨e4, ps4, g4⟩ | ⟨ps4, g4⟩
        · simp only [hU]
          exact ⟨⟨hq.2.1, hq.2.2, hv.2.1, hv.2.2⟩, hq.1, hv.1⟩
        · simp only [hU]
          rcases hco : w.current_outbreak with _ | pa
          · simp only [hco]
            exact ⟨⟨hq.2.1, hq.2.2, hv.2.1, hv.2.2⟩, hq.1, hv.1⟩
          · simp only [hco]
            exact ⟨⟨hq.2.1, hq.2.2, hv.2.1, hv.2.2⟩, hq.1, hv.1⟩
    · simp only [hT]
      exact ⟨⟨hq.2.1, hq.2.2, hv.2.1, hv.2.2⟩, hq.1, hv.1⟩

theorem stepOutcome_fst (w : World) (g : Rng) :
    (stepOutcome w g).1 = worldOf (w.update g) := by
  unfold stepOutcome worldOf
  rcases w.update g with ⟨e, w1, g1⟩ | ⟨w1, g1⟩ <;> rfl

theorem runSteps_succ (n : ℕ) (w : World) (g : Rng) :
    runSteps (n + 1) w g =
      runSteps n (stepOutcome w g).1 (stepOutcome w g).2 := rfl

/-- C5.  The two policy levers are monotone ratchets in range: a fresh
world starts inside `[0,0.5] × [0,0.3]`, and across every sequence of
`World.update` day steps (raising or not — a raising step also leaves
its partial state behind) `quarantine_effectiveness` stays in
`[0, 0.5]`, `vaccination_rate` stays in `[0, 0.3]`, and neither lever
ever decreases. -/
theorem policy_ratchet_monotone :
    (∀ (size : ℚ) (n : ℕ) (g : Rng), (World.init size n g).1.InPolicyRange) ∧
      ∀ (w : World) (g : Rng) (n : ℕ), w.InPolicyRange →
        (runSteps n w g).1.InPolicyRange ∧
          w.quarantine_effectiveness ≤
            (runSteps n w g).1.quarantine_effectiveness ∧
          w.vaccination_rate ≤ (runSteps n w g).1.vaccination_rate := by
  constructor
  · intro size n g
    exact ⟨le_refl 0, show (0 : ℚ) ≤ 0.5 by norm_num, le_refl 0,
      show (0 : ℚ) ≤ 0.3 by norm_num⟩
  · intro w g n
    induction n generalizing w g with
    | zero => exact fun hw => ⟨hw, le_refl _, le_refl _⟩
    | succ n ih =>
      intro hw
      have h1 := update_policy w g hw
      rw [← stepOutcome_fst w g] at h1
      have h2 := ih (stepOutcome w g).1 (stepOutcome w g).2 h1.1
      rw [runSteps_succ]
      exact ⟨h2.1, le_trans h1.2.1 h2.2.1, le_trans h1.2.2 h2.2.2⟩

/-- Witness for `policy_ratchet_monotone` at a concrete world and a
concrete ten-step run. -/
theorem policy_ratchet_monotone_witness :
    worldActive.InPolicyRange ∧
      ((runSteps 10 worldActive ⟨[0.5], [2]⟩).1.InPolicyRange ∧
        worldActive.quarantine_effectiveness ≤
          (runSteps 10 worldActive ⟨[0.5], [2]⟩).1.quarantine_effectiveness ∧
        worldActive.vaccination_rate ≤
          (runSteps 10 worldActive ⟨[0.5], [2]⟩).1.vaccination_rate) := by
  have hw : worldActive.InPolicyRange :=
    ⟨le_refl 0, by norm_num [worldActive], le_refl 0, by norm_num [worldActive]⟩
  exact ⟨hw, policy_ratchet_monotone.2 worldActive ⟨[0.5], [2]⟩ 10 hw⟩

theorem map_health_getElem (xs ys : List Person)
    (h : xs.map Person.health = ys.map Person.health) (i : ℕ) :
    (xs[i]?).map Person.health = (ys[i]?).map Person.health := by
  have h2 := congrArg (fun l => l[i]?) h
  simpa [List.getElem?_map] using h2

/-- Carry "the agent at index `i` has health `h0`" through a stage that
preserves the health map. -/
theorem health_at_trans (xs ys : List Person) (i : ℕ) (h0 : HealthStatus)
    (hmap : ys.map Person.health = xs.map Person.health)
    (hx : ∃ p, xs[i]? = some p ∧ p.health = h0) :
    ∃ p, ys[i]? = some p ∧ p.health = h0 := by
  obtain ⟨p, hp, hph⟩ := hx
  have h2 := map_health_getElem ys xs hmap i
  rw [hp] at h2
  rcases hy : ys[i]? with _ | p1
  · rw [hy] at h2; simp at h2
  · rw [hy] at h2
    simp only [Option.map_some'] at h2
    refine ⟨p1, rfl, ?_⟩
    rw [Option.some_inj.1 h2, hph]

theorem simulate_travel_out (w : World) (g : Rng)
    (r : Except (SimError × World × Rng) (World × Rng))
    (h : w.simulate_travel g = r) :
    (worldOf r).population =
        popOf (travelLoop w.cities w.size w.travel_rate w.population g) ∧
      (worldOf r).day = w.day ∧
      (worldOf r).current_outbreak = w.current_outbreak ∧
      (worldOf r).quarantine_effectiveness = w.quarantine_effectiveness ∧
      (worldOf r).vaccination_rate = w.vaccination_rate ∧
      (worldOf r).cities = w.cities ∧ (worldOf r).size = w.size ∧
      (worldOf r).travel_rate = w.travel_rate := by
  subst h
  unfold World.simulate_travel
  rcases htl : travelLoop w.cities w.size w.travel_rate w.population g with
    ⟨e, ps, g1⟩ | ⟨ps, g1⟩ <;> simp [worldOf, popOf]

theorem update_health_absorbed (w : World) (g : Rng) (i : ℕ) (p0 : Person)
    (hp : w.population[i]? = some p0)
    (hab : p0.health = .RECOVERED ∨ p0.health = .DECEASED) :
    ∃ p1, (worldOf (w.update g)).population[i]? = some p1 ∧
      p1.health = p0.health := by
  have hnh : ∀ q : Person, q.health = p0.health → targetTest q = false := by
    intro q hq
    rcases hab with h | h <;> simp [targetTest, hq, h]
  have hni : ∀ q : Person, q.health = p0.health → q.health ≠ .INFECTED := by
    intro q hq
    rcases hab with h | h <;> simp [hq, h]
  by_cases hpe : w.population = []
  · rw [hpe] at hp
    simp at hp
  · have hA := apply_phm_cons { w with day := w.day + 1 } g (by simpa using hpe)
    unfold World.update
    simp only [hA]
    -- agent `i` still has health `p0.health` after the policy loop
    have hat1 : ∃ p, ((phmLoop (newQE { w with day := w.day + 1 })
        (newVR { w with day := w.day + 1 }) w.population g).1)[i]? = some p ∧
          p.health = p0.health :=
      health_at_trans _ _ _ _ (phmLoop_health _ _ w.population g) ⟨p0, hp, rfl⟩
    split
    · -- travel raised; its partial population still has the agent intact
      rename_i r2 heq2
      obtain ⟨hpop, -⟩ := simulate_travel_out _ _ _ heq2
      simp only [worldOf] at hpop ⊢
      rw [hpop]
      exact health_at_trans _ _ _ _ (travelLoop_health _ _ _ _ _) hat1
    · rename_i w2 g2 heq2
      obtain ⟨hpop, -⟩ := simulate_travel_out _ _ _ heq2
      simp only [worldOf] at hpop
      have hat2 : ∃ p, w2.population[i]? = some p ∧ p.health = p0.health := by
        rw [hpop]
        exact health_at_trans _ _ _ _ (travelLoop_health _ _ _ _ _) hat1
      obtain ⟨p2, hp2, hp2h⟩ := hat2
      have hat3 : (popOf (transmissionPass w2.population w2.day g2))[i]? =
          some p2 :=
        processSources_untouched _ _ _ _ _ _ hp2 (hnh p2 hp2h)
      split
      · -- the transmission pass raised
        rename_i e3 ps3 g3 heq3
        rw [congrArg popOf heq3] at hat3
        exact ⟨p2, hat3, hp2h⟩
      · rename_i ps3 g3 heq3
        rw [congrArg popOf heq3] at hat3
        have hat3' : ps3[i]? = some p2 := hat3
        have hat4 : (popOf (updateLoop w2.day ps3 g3))[i]? = some p2 :=
          updateLoop_untouched _ _ _ _ _ hat3' (hni p2 hp2h)
        split
        · -- the person loop raised
          rename_i e4 ps4 g4 heq4
          rw [congrArg popOf heq4] at hat4
          exact ⟨p2, hat4, hp2h⟩
        · rename_i ps4 g4 heq4
          rw [congrArg popOf heq4] at hat4
          have hat4' : ps4[i]? = some p2 := hat4
          split
          · exact ⟨p2, hat4', hp2h⟩
          · exact ⟨p2, hat4', hp2h⟩

/-- C9.  Once an agent's health is `RECOVERED` or `DECEASED`, no
operation of any later day step — policy, travel, transmission,
per-agent update, or mutation, whether the step completes or raises —
ever assigns it a new health value: after any number of steps the agent
at the same position in the population list still has its old
health. -/
theorem absorbed_health_stable (w : World) (g : Rng) (n : ℕ) (i : ℕ)
    (p0 : Person) (hp : w.population[i]? = some p0)
    (hab : p0.health = .RECOVERED ∨ p0.health = .DECEASED) :
    ∃ p1, (runSteps n w g).1.population[i]? = some p1 ∧
      p1.health = p0.health := by
  induction n generalizing w g p0 with
  | zero => exact ⟨p0, hp, rfl⟩
  | succ n ih =>
    obtain ⟨p1, hp1, hh1⟩ := update_health_absorbed w g i p0 hp hab
    rw [← stepOutcome_fst] at hp1
    have hab1 : p1.health = .RECOVERED ∨ p1.health = .DECEASED := by
      rw [hh1]; exact hab
    obtain ⟨p2, hp2, hh2⟩ := ih (stepOutcome w g).1 (stepOutcome w g).2 p1
      hp1 hab1
    rw [runSteps_succ]
    exact ⟨p2, hp2, hh2.trans hh1⟩

/-- Witness for `absorbed_health_stable`: the recovered agent of
`worldRec` still reads `RECOVERED` after two concrete day steps. -/
theorem absorbed_health_stable_witness :
    worldRec.population[0]? = some personRec ∧
      (personRec.health = .RECOVERED ∨ personRec.health = .DECEASED) ∧
      ∃ p1, (runSteps 2 worldRec ⟨[0.5, 0.5], [0]⟩).1.population[0]? =
          some p1 ∧ p1.health = personRec.health :=
  ⟨rfl, Or.inl rfl,
    absorbed_health_stable worldRec ⟨[0.5, 0.5], [0]⟩ 2 0 personRec rfl
      (Or.inl rfl)⟩

/-! ## Which exception can each stage raise? -/

theorem travelLoop_error_kind (cities : List City) (size tr : ℚ)
    (ps : List Person) (g : Rng) (e : SimError) (ps' : List Person) (g' : Rng)
    (h : travelLoop cities size tr ps g = .error (e, ps', g')) :
    e = .indexError := by
  induction ps generalizing g e ps' g' with
  | nil => simp [travelLoop] at h
  | cons p rest ih =>
    simp only [travelLoop] at h
    split_ifs at h with hu
    · cases cities with
      | nil =>
        injection h with h2
        cases h2
        rfl
      | cons c cs =>
        rcases hrec : travelLoop (c :: cs) size tr rest
            (((g.nextReal.2.choiceIdx (c :: cs).length).2.uniform (-5)
              5).2.uniform (-5) 5).2 with ⟨e2, r2, gg⟩ | ⟨r2, gg⟩
        · simp only [hrec, consOut] at h
          injection h with h2
          cases h2
          exact ih _ _ _ _ hrec
        · simp only [hrec, consOut] at h
          cases h
    · rcases hrec : travelLoop cities size tr rest g.nextReal.2 with
        ⟨e2, r2, gg⟩ | ⟨r2, gg⟩
      · simp only [hrec, consOut] at h
        injection h with h2
        cases h2
        exact ih _ _ _ _ hrec
      · simp only [hrec, consOut] at h
        cases h

theorem processTarget_error_kind (src tgt : Person) (day : ℤ) (g : Rng)
    (e : SimError) (h : processTarget src tgt day g = .error e) :
    e = .attributeError ∨ e = .indexError := by
  unfold processTarget at h
  rcases hsi : src.infection with _ | pa
  · simp only [hsi] at h
    injection h with h2
    exact Or.inl h2.symm
  · simp only [hsi] at h
    rcases hk : keysOf pa.transmission_vectors with _ | ⟨k, ks⟩
    · simp only [hk] at h
      injection h with h2
      exact Or.inr h2.symm
    · simp only [hk] at h
      split_ifs at h

theorem processSource_error_kind (src : Person) (day : ℤ) (ps : List Person)
    (g : Rng) (e : SimError) (ps' : List Person) (g' : Rng)
    (h : processSource src day ps g = .error (e, ps', g')) :
    e = .attributeError ∨ e = .indexError := by
  induction ps generalizing g e ps' g' with
  | nil => simp [processSource] at h
  | cons t rest ih =>
    simp only [processSource] at h
    split_ifs at h with ht
    · rcases hpt : processTarget src t day g with e2 | ⟨t1, g1⟩
      · simp only [hpt] at h
        injection h with h2
        cases h2
        exact processTarget_error_kind _ _ _ _ _ hpt
      · simp only [hpt] at h
        rcases hrec : processSource src day rest g1 with ⟨e2, r2, gg⟩ | ⟨r2, gg⟩
        · simp only [hrec, consOut] at h
          injection h with h2
          cases h2
          exact ih _ _ _ _ hrec
        · simp only [hrec, consOut] at h
          cases h
    · rcases hrec : processSource src day rest g with ⟨e2, r2, gg⟩ | ⟨r2, gg⟩
      · simp only [hrec, consOut] at h
        injection h with h2
        cases h2
        exact ih _ _ _ _ hrec
      · simp only [hrec, consOut] at h
        cases h

theorem processSources_error_kind (day : ℤ) (srcs ps : List Person) (g : Rng)
    (e : SimError) (ps' : List Person) (g' : Rng)
    (h : processSources day srcs ps g = .error (e, ps', g')) :
    e = .attributeError ∨ e = .indexError := by
  induction srcs generalizing ps g e ps' g' with
  | nil => simp [processSources] at h
  | cons s rest ih =>
    simp only [processSources] at h
    rcases hr : processSource s day ps g with ⟨e2, ps1, g1⟩ | ⟨ps1, g1⟩
    · simp only [hr] at h
      injection h with h2
      cases h2
      exact processSource_error_kind _ _ _ _ _ _ _ hr
    · simp only [hr] at h
      exact ih _ _ _ _ _ h

theorem person_update_error_kind (p : Person) (day : ℤ) (g : Rng)
    (e : SimError) (h : p.update day g = .error e) : e = .attributeError := by
  unfold Person.update at h
  by_cases hh : p.health = .INFECTED
  · rw [if_pos hh] at h
    rcases hpi : p.infection with _ | pa
    · simp only [hpi] at h
      injection h with h2
      exact h2.symm
    · simp only [hpi] at h
      split_ifs at h
  · rw [if_neg hh] at h
    simp at h

theorem updateLoop_error_kind (day : ℤ) (ps : List Person) (g : Rng)
    (e : SimError) (ps' : List Person) (g' : Rng)
    (h : updateLoop day ps g = .error (e, ps', g')) : e = .attributeError := by
  induction ps generalizing g e ps' g' with
  | nil => simp [updateLoop] at h
  | cons p rest ih =>
    simp only [updateLoop] at h
    rcases hr : p.update day g with e2 | ⟨p1, g1⟩
    · simp only [hr] at h
      injection h with h2
      cases h2
      exact person_update_error_kind _ _ _ _ hr
    · simp only [hr] at h
      rcases hrec : updateLoop day rest g1 with ⟨e2, r2, gg⟩ | ⟨r2, gg⟩
      · simp only [hrec, consOut] at h
        injection h with h2
        cases h2
        exact ih _ _ _ _ hrec
      · simp only [hrec, consOut] at h
        cases h

theorem simulate_travel_error_kind (w : World) (g : Rng) (e : SimError)
    (w' : World) (g' : Rng) (h : w.simulate_travel g = .error (e, w', g')) :
    e = .indexError := by
  unfold World.simulate_travel at h
  rcases htl : travelLoop w.cities w.size w.travel_rate w.population g with
    ⟨e2, ps, g1⟩ | ⟨ps, g1⟩
  · simp only [htl] at h
    injection h with h2
    cases h2
    exact travelLoop_error_kind _ _ _ _ _ _ _ _ htl
  · simp only [htl] at h
    cases h

/-- C7 (amended).  Stepping a world with an empty population fails with
an (unhandled) division-by-zero error from the prevalence computation —
not with any defined `InvalidStateError`, which the code never defines
or raises — and the failure surfaces before any per-agent effect, with
only the day counter already incremented.  With a non-empty population
the division cannot fail: no step ever signals a division error. -/
theorem step_zero_division_iff (w : World) (g : Rng) :
    ((∃ w1 g1, w.update g = .error (.zeroDivision, w1, g1)) ↔
        w.population = []) ∧
      (w.population = [] →
        w.update g = .error (.zeroDivision, { w with day := w.day + 1 }, g)) := by
  have hempty : w.population = [] →
      w.update g = .error (.zeroDivision, { w with day := w.day + 1 }, g) := by
    intro hpe
    have hA := apply_phm_empty { w with day := w.day + 1 } g (by simpa using hpe)
    unfold World.update
    simp only [hA]
  refine ⟨⟨?_, fun hpe => ⟨_, _, hempty hpe⟩⟩, hempty⟩
  intro ⟨w1, g1, herr⟩
  by_contra hpe
  have hA := apply_phm_cons { w with day := w.day + 1 } g (by simpa using hpe)
  unfold World.update at herr
  simp only [hA] at herr
  split at herr
  · rename_i r2 heq2
    injection herr with h2
    rw [h2] at heq2
    exact absurd (simulate_travel_error_kind _ _ _ _ _ heq2) (by simp)
  · rename_i w2 g2 heq2
    split at herr
    · rename_i e3 ps3 g3 heq3
      injection herr with h2
      have he3 : e3 = SimError.zeroDivision := congrArg Prod.fst h2
      rw [he3] at heq3
      rcases processSources_error_kind _ _ _ _ _ _ _ heq3 with h | h <;>
        simp at h
    · rename_i ps3 g3 heq3
      split at herr
      · rename_i e4 ps4 g4 heq4
        injection herr with h2
        have he4 : e4 = SimError.zeroDivision := congrArg Prod.fst h2
        rw [he4] at heq4
        have := updateLoop_error_kind _ _ _ _ _ _ heq4
        simp at this
      · rename_i ps4 g4 heq4
        split at herr
        · injection herr with h2
          have : SimError.attributeError = SimError.zeroDivision :=
            congrArg Prod.fst h2
          simp at this
        · cases herr

/-- Counterexample to C7 as stated: on a concrete empty-population
world the failure is the unhandled division-by-zero of the prevalence
computation (the model's error type has no `InvalidStateError` at all,
because the code defines none). -/
theorem step_empty_zero_division_counterexample :
    worldEmpty.update ⟨[], []⟩ =
      .error (.zeroDivision, { worldEmpty with day := 1 }, ⟨[], []⟩) := rfl

/-- Witness for `step_zero_division_iff` at a concrete empty world. -/
theorem step_zero_division_iff_witness :
    worldEmpty.population = [] ∧
      worldEmpty.update ⟨[0.1], [2]⟩ =
        .error (.zeroDivision, { worldEmpty with day := worldEmpty.day + 1 },
          ⟨[0.1], [2]⟩) :=
  ⟨rfl, (step_zero_division_iff worldEmpty ⟨[0.1], [2]⟩).2 rfl⟩

/-! ## Stages that cannot raise under the program's own invariants -/

theorem travelLoop_no_error (cities : List City) (size tr : ℚ)
    (ps : List Person) (g : Rng) (r : SimError × List Person × Rng)
    (hc : cities ≠ []) (h : travelLoop cities size tr ps g = .error r) :
    False := by
  induction ps generalizing g r with
  | nil => simp [travelLoop] at h
  | cons p rest ih =>
    simp only [travelLoop] at h
    split_ifs at h with hu
    · cases cities with
      | nil => exact hc rfl
      | cons c cs =>
        rcases hrec : travelLoop (c :: cs) size tr rest
            (((g.nextReal.2.choiceIdx (c :: cs).length).2.uniform (-5)
              5).2.uniform (-5) 5).2 with ⟨e2, r2, gg⟩ | ⟨r2, gg⟩
        · exact ih _ _ hrec
        · simp only [hrec, consOut] at h
          cases h
    · rcases hrec : travelLoop cities size tr rest g.nextReal.2 with
        ⟨e2, r2, gg⟩ | ⟨r2, gg⟩
      · exact ih _ _ hrec
      · simp only [hrec, consOut] at h
        cases h

theorem simulate_travel_no_error (w : World) (g : Rng)
    (r : SimError × World × Rng) (hc : w.cities ≠ [])
    (h : w.simulate_travel g = .error r) : False := by
  unfold World.simulate_travel at h
  rcases htl : travelLoop w.cities w.size w.travel_rate w.population g with
    ⟨e2, ps, g1⟩ | ⟨ps, g1⟩
  · exact travelLoop_no_error _ _ _ _ _ _ hc htl
  · simp only [htl] at h
    cases h

theorem processTarget_no_error (src tgt : Person) (day : ℤ) (g : Rng)
    (e : SimError) (hs : SrcOK src)
    (h : processTarget src tgt day g = .error e) : False := by
  obtain ⟨pa, hpa, hk⟩ := hs
  unfold processTarget at h
  simp only [hpa] at h
  rcases hke : keysOf pa.transmission_vectors with _ | ⟨k, ks⟩
  · exact hk hke
  · simp only [hke] at h
    split_ifs at h

theorem processSource_no_error (src : Person) (day : ℤ) (ps : List Person)
    (g : Rng) (r : SimError × List Person × Rng) (hs : SrcOK src)
    (h : processSource src day ps g = .error r) : False := by
  induction ps generalizing g r with
  | nil => simp [processSource] at h
  | cons t rest ih =>
    simp only [processSource] at h
    split_ifs at h with ht
    · rcases hpt : processTarget src t day g with e2 | ⟨t1, g1⟩
      · exact processTarget_no_error _ _ _ _ _ hs hpt
      · simp only [hpt] at h
        rcases hrec : processSource src day rest g1 with ⟨e2, r2, gg⟩ | ⟨r2, gg⟩
        · exact ih _ _ hrec
        · simp only [hrec, consOut] at h
          cases h
    · rcases hrec : processSource src day rest g with ⟨e2, r2, gg⟩ | ⟨r2, gg⟩
      · exact ih _ _ hrec
      · simp only [hrec, consOut] at h
        cases h

theorem processSources_no_error (day : ℤ) (srcs ps : List Person) (g : Rng)
    (r : SimError × List Person × Rng) (hs : ∀ s ∈ srcs, SrcOK s)
    (h : processSources day srcs ps g = .error r) : False := by
  induction srcs generalizing ps g r with
  | nil => simp [processSources] at h
  | cons s rest ih =>
    simp only [processSources] at h
    rcases hr : processSource s day ps g with ⟨e2, ps1, g1⟩ | ⟨ps1, g1⟩
    · exact processSource_no_error _ _ _ _ _ (hs s (by simp)) hr
    · simp only [hr] at h
      exact ih _ _ _ (fun q hq => hs q (List.mem_cons_of_mem _ hq)) h

theorem transmissionPass_no_error (ps : List Person) (day : ℤ) (g : Rng)
    (r : SimError × List Person × Rng)
    (hs : ∀ s ∈ sourceFilter ps, SrcOK s)
    (h : transmissionPass ps day g = .error r) : False :=
  processSources_no_error day (sourceFilter ps) ps g r hs h

theorem person_update_no_error (p : Person) (day : ℤ) (g : Rng) (e : SimError)
    (hp : p.health = .INFECTED → p.infection.isSome)
    (h : p.update day g = .error e) : False := by
  unfold Person.update at h
  by_cases hh : p.health = .INFECTED
  · rw [if_pos hh] at h
    rcases hpi : p.infection with _ | pa
    · rw [hpi] at hp
      simp at hp
      exact hp hh
    · simp only [hpi] at h
      split_ifs at h
  · rw [if_neg hh] at h
    cases h

theorem updateLoop_no_error (day : ℤ) (ps : List Person) (g : Rng)
    (r : SimError × List Person × Rng)
    (hp : ∀ p ∈ ps, p.health = .INFECTED → p.infection.isSome)
    (h : updateLoop day ps g = .error r) : False := by
  induction ps generalizing g r with
  | nil => simp [updateLoop] at h
  | cons p rest ih =>
    simp only [updateLoop] at h
    rcases hr : p.update day g with e2 | ⟨p1, g1⟩
    · exact person_update_no_error _ _ _ _ (hp p (by simp)) hr
    · simp only [hr] at h
      rcases hrec : updateLoop day rest g1 with ⟨e2, r2, gg⟩ | ⟨r2, gg⟩
      · exact ih _ _ (fun q hq => hp q (List.mem_cons_of_mem _ hq)) hrec
      · simp only [hrec, consOut] at h
        cases h

/-! ## The `InfOK` invariant moves through the stages -/

theorem map_field_getElem {β : Type} (f : Person → β) (xs ys : List Person)
    (h : xs.map f = ys.map f) (i : ℕ) :
    (xs[i]?).map f = (ys[i]?).map f := by
  have h2 := congrArg (fun l => l[i]?) h
  simpa [List.getElem?_map] using h2

theorem InfOK_of_maps (xs ys : List Person)
    (hh : ys.map Person.health = xs.map Person.health)
    (hi : ys.map Person.infection = xs.map Person.infection)
    (hx : InfOK xs) : InfOK ys := by
  intro p hp hinf
  obtain ⟨i, hlt, hget⟩ := List.getElem_of_mem hp
  have hget? : ys[i]? = some p := by
    rw [List.getElem?_eq_getElem hlt, hget]
  have h1 := map_field_getElem Person.health ys xs hh i
  have h2 := map_field_getElem Person.infection ys xs hi i
  rw [hget?] at h1 h2
  rcases hx? : xs[i]? with _ | q
  · rw [hx?] at h1
    simp at h1
  · rw [hx?] at h1 h2
    simp only [Option.map_some'] at h1 h2
    have hq : q ∈ xs := by
      have := List.getElem?_eq_some_iff.1 hx?
      obtain ⟨hlt2, hg2⟩ := this
      exact hg2 ▸ List.getElem_mem hlt2
    have hph : p.health = q.health := Option.some_inj.1 h1
    have hpif : p.infection = q.infection := Option.some_inj.1 h2
    obtain ⟨pa, hpa, hk⟩ := hx q hq (by rw [← hph]; exact hinf)
    refine ⟨pa, ?_, hk⟩
    rw [hpif, hpa]

theorem processTarget_result (src tgt : Person) (day : ℤ) (g : Rng)
    (t1 : Person) (g1 : Rng) (h : processTarget src tgt day g = .ok (t1, g1)) :
    t1 = tgt ∨ ∃ pa, src.infection = some pa ∧ t1.health = .INFECTED ∧
      t1.infection = some pa := by
  unfold processTarget at h
  rcases hpi : src.infection with _ | pa
  · simp only [hpi] at h
    cases h
  · simp only [hpi] at h
    rcases hk : keysOf pa.transmission_vectors with _ | ⟨k, ks⟩
    · simp only [hk] at h
      cases h
    · simp only [hk] at h
      split_ifs at h with h1 h2
      · injection h with h3
        rw [Prod.mk.injEq] at h3
        exact Or.inr ⟨pa, rfl, by rw [← h3.1], by rw [← h3.1]⟩
      · injection h with h3
        exact Or.inl (congrArg Prod.fst h3).symm
      · injection h with h3
        exact Or.inl (congrArg Prod.fst h3).symm

theorem processSource_infOK (src : Person) (day : ℤ) (ps : List Person)
    (g : Rng) (hsrc : SrcOK src) (hps : InfOK ps) :
    InfOK (popOf (processSource src day ps g)) := by
  induction ps generalizing g with
  | nil => simpa [processSource, popOf] using hps
  | cons t rest ih =>
    have htmem : InfOK rest := fun q hq => hps q (by simp [hq])
    have hthead : t.health = .INFECTED → SrcOK t := hps t (by simp)
    simp only [processSource]
    split_ifs with ht
    · rcases hpt : processTarget src t day g with e2 | ⟨t1, g1⟩
      · simp only [popOf]
        exact hps
      · rw [popOf_consOut]
        intro q hq hqi
        rcases List.mem_cons.1 hq with rfl | hq2
        · rcases processTarget_result _ _ _ _ _ _ hpt with rfl | ⟨pa, hpa, -, hq3⟩
          · exact hthead hqi
          · obtain ⟨pa0, hpa0, hk0⟩ := hsrc
            rw [hpa0] at hpa
            refine ⟨pa0, ?_, hk0⟩
            rw [hq3, Option.some_inj.1 hpa]
        · exact ih g1 htmem q hq2 hqi
    · rw [popOf_consOut]
      intro q hq hqi
      rcases List.mem_cons.1 hq with rfl | hq2
      · exact hthead hqi
      · exact ih g htmem q hq2 hqi

theorem transmissionPass_infOK (ps : List Person) (day : ℤ) (g : Rng)
    (hsrcs : ∀ s ∈ sourceFilter ps, SrcOK s) (hps : InfOK ps) :
    InfOK (popOf (transmissionPass ps day g)) := by
  unfold transmissionPass
  have hgen : ∀ (srcs qs : List Person) (g2 : Rng), (∀ s ∈ srcs, SrcOK s) →
      InfOK qs → InfOK (popOf (processSources day srcs qs g2)) := by
    intro srcs
    induction srcs with
    | nil => intro qs g2 _ hqs; simpa [processSources, popOf] using hqs
    | cons s rest ih =>
      intro qs g2 hs hqs
      simp only [processSources]
      rcases hr : processSource s day qs g2 with ⟨e2, ps1, g1⟩ | ⟨ps1, g1⟩
      · have h1 := processSource_infOK s day qs g2 (hs s (by simp)) hqs
        rw [hr] at h1
        simpa [popOf] using h1
      · have h1 := processSource_infOK s day qs g2 (hs s (by simp)) hqs
        rw [hr] at h1
        simp only [popOf] at h1
        exact ih ps1 g1 (fun q hq => hs q (by simp [hq])) h1
  exact hgen _ _ _ hsrcs hps

theorem phmLoop_length (qe vr : ℚ) (ps : List Person) (g : Rng) :
    ((phmLoop qe vr ps g).1).length = ps.length := by
  have h := congrArg List.length (phmLoop_health qe vr ps g)
  simpa using h

theorem travelLoop_length (cities : List City) (size tr : ℚ)
    (ps : List Person) (g : Rng) :
    (popOf (travelLoop cities size tr ps g)).length = ps.length := by
  have h := congrArg List.length (travelLoop_health cities size tr ps g)
  simpa using h

/-- C10.  Stepping a world whose outbreak was never seeded
(`current_outbreak = None`) fails: every per-day stage — policy
adjustment, travel, the transmission pass, the per-agent updates —
succeeds first, the day counter is already incremented, and then the
final `self.current_outbreak.mutate()` raises an `AttributeError` on
`None`, so the failure surfaces only after those partial effects have
been applied.  (The hypotheses are the structural invariants of any
world the program builds: some agent, the five cities, and every
infected agent carrying a pathogen with at least one vector.) -/
theorem step_without_outbreak_fails (w : World) (g : Rng)
    (hpop : w.population ≠ []) (hcit : w.cities ≠ [])
    (hco : w.current_outbreak = none) (hinf : InfOK w.population) :
    ∃ w1 g1 w2 g2 ps3 g3 ps4 g4,
      ({ w with day := w.day + 1 }).apply_public_health_measures g =
        .ok (w1, g1) ∧
      w1.simulate_travel g1 = .ok (w2, g2) ∧
      transmissionPass w2.population w2.day g2 = .ok (ps3, g3) ∧
      updateLoop w2.day ps3 g3 = .ok (ps4, g4) ∧
      w.update g = .error (.attributeError, { w2 with population := ps4 }, g4) ∧
      w2.day = w.day + 1 ∧ w2.current_outbreak = none ∧
      ps4.length = w.population.length := by
  have hA := apply_phm_cons { w with day := w.day + 1 } g (by simpa using hpop)
  -- the policy stage succeeds and preserves the infection invariant
  have hio1 : InfOK (phmLoop (newQE { w with day := w.day + 1 })
      (newVR { w with day := w.day + 1 }) w.population g).1 :=
    InfOK_of_maps _ _ (phmLoop_health _ _ _ _) (phmLoop_infection _ _ _ _) hinf
  rcases hT : ({ w with
      day := w.day + 1,
      quarantine_effectiveness := newQE { w with day := w.day + 1 },
      vaccination_rate := newVR { w with day := w.day + 1 },
      population := (phmLoop (newQE { w with day := w.day + 1 })
        (newVR { w with day := w.day + 1 })
        ({ w with day := w.day + 1 } : World).population g).1 } :
        World).simulate_travel
      ((phmLoop (newQE { w with day := w.day + 1 })
        (newVR { w with day := w.day + 1 })
        ({ w with day := w.day + 1 } : World).population g).2) with rT | ⟨w2, g2⟩
  · exact absurd hT (by
      intro hT
      exact simulate_travel_no_error _ _ _ (by exact hcit) hT)
  · obtain ⟨hpop2, hday2, hco2, -⟩ := simulate_travel_out _ _ _ hT
    simp only [worldOf] at hpop2 hday2 hco2
    have hio2 : InfOK w2.population := by
      rw [hpop2]
      exact InfOK_of_maps _ _ (travelLoop_health _ _ _ _ _)
        (travelLoop_infection _ _ _ _ _) hio1
    have hsrcs : ∀ s ∈ sourceFilter w2.population, SrcOK s := by
      intro s hs
      have hmem := List.mem_filter.1 hs
      have hcond := of_decide_eq_true hmem.2
      exact hio2 s hmem.1 hcond.1
    rcases hTr : transmissionPass w2.population w2.day g2 with rTr | ⟨ps3, g3⟩
    · exact absurd hTr (by
        intro hTr
        exact transmissionPass_no_error _ _ _ _ hsrcs hTr)
    · have hio3 : InfOK ps3 := by
        have h1 := transmissionPass_infOK w2.population w2.day g2 hsrcs hio2
        rw [congrArg popOf hTr] at h1
        exact h1
      rcases hU : updateLoop w2.day ps3 g3 with rU | ⟨ps4, g4⟩
      · exact absurd hU (by
          intro hU
          refine updateLoop_no_error _ _ _ _ ?_ hU
          intro p hp hpi
          obtain ⟨pa, hpa, -⟩ := hio3 p hp hpi
          simp [hpa])
      · have hlen4 : ps4.length = w.population.length := by
          have h1 := updateLoop_length w2.day ps3 g3
          rw [congrArg popOf hU] at h1
          have h2 : (popOf (transmissionPass w2.population w2.day g2)).length =
              w2.population.length :=
            processSources_length w2.day (sourceFilter w2.population)
              w2.population g2
          rw [congrArg popOf hTr] at h2
          have h3 : w2.population.length = w.population.length := by
            rw [hpop2]
            rw [travelLoop_length]
            exact phmLoop_length _ _ _ _
          simp only [popOf] at h1 h2
          rw [h1, h2, h3]
        refine ⟨_, _, w2, g2, ps3, g3, ps4, g4, hA, hT, hTr, ?_, ?_, ?_,
          hco2.trans hco, hlen4⟩
        · exact hU
        · unfold World.update
          simp only [hA, hT, hTr]
          have hU' : updateLoop
              ({ w2 with population := ps3 } : World).day ps3 g3 =
                .ok (ps4, g4) := hU
          simp only [hU']
          have hco4 : w2.current_outbreak = none := hco2.trans hco
          simp only [hco4]
        · exact hday2

/-- Witness for `step_without_outbreak_fails` on a concrete unseeded
world. -/
theorem step_without_outbreak_fails_witness :
    worldNoOutbreak.population ≠ [] ∧ worldNoOutbreak.cities ≠ [] ∧
      worldNoOutbreak.current_outbreak = none ∧
      InfOK worldNoOutbreak.population ∧
      ∃ w1 g1 w2 g2 ps3 g3 ps4 g4,
        ({ worldNoOutbreak with
             day := worldNoOutbreak.day + 1 }).apply_public_health_measures
            ⟨[0.5], [3]⟩ = .ok (w1, g1) ∧
        w1.simulate_travel g1 = .ok (w2, g2) ∧
        transmissionPass w2.population w2.day g2 = .ok (ps3, g3) ∧
        updateLoop w2.day ps3 g3 = .ok (ps4, g4) ∧
        worldNoOutbreak.update ⟨[0.5], [3]⟩ =
          .error (.attributeError, { w2 with population := ps4 }, g4) ∧
        w2.day = worldNoOutbreak.day + 1 ∧ w2.current_outbreak = none ∧
        ps4.length = worldNoOutbreak.population.length := by
  have hinf : InfOK worldNoOutbreak.population := by
    intro p hp hpi
    rw [show worldNoOutbreak.population = [Person.init 1 1] from rfl,
      List.mem_singleton] at hp
    subst hp
    simp [Person.init] at hpi
  exact ⟨by simp [worldNoOutbreak], by simp [worldNoOutbreak], rfl, hinf,
    step_without_outbreak_fails worldNoOutbreak ⟨[0.5], [3]⟩
      (by simp [worldNoOutbreak]) (by simp [worldNoOutbreak]) rfl hinf⟩

/-! ## The transmission pass evaluates exactly the snapshot × filter pairs -/

theorem processSourceLog_spec (src : Person) (day : ℤ) (ps : List Person)
    (g : Rng) (ps' : List Person) (g' : Rng) (log : List Person)
    (h : processSourceLog src day ps g = some (ps', g', log)) :
    log = ps.filter targetTest ∧
      processSource src day ps g = .ok (ps', g') := by
  induction ps generalizing g ps' g' log with
  | nil =>
    simp only [processSourceLog, Option.some_inj, Prod.mk.injEq] at h
    obtain ⟨h1, h2, h3⟩ := h
    subst h1; subst h2; subst h3
    exact ⟨rfl, rfl⟩
  | cons t rest ih =>
    simp only [processSourceLog] at h
    split_ifs at h with ht
    · rcases hpt : processTarget src t day g with e | ⟨t1, g1⟩
      · simp only [hpt] at h
        cases h
      · simp only [hpt] at h
        rcases hrec : processSourceLog src day rest g1 with _ | ⟨rest1, g2, log2⟩
        · simp only [hrec] at h
          cases h
        · simp only [hrec, Option.some_inj, Prod.mk.injEq] at h
          obtain ⟨h1, h2, h3⟩ := h
          obtain ⟨hf, hp⟩ := ih g1 rest1 g2 log2 hrec
          subst h1; subst h2; subst h3
          constructor
          · simp only [List.filter_cons, ht, if_pos, hf]
          · simp only [processSource, ht, if_pos, hpt, hp, consOut]
    · rcases hrec : processSourceLog src day rest g with _ | ⟨rest1, g1, log2⟩
      · simp only [hrec] at h
        cases h
      · simp only [hrec, Option.some_inj, Prod.mk.injEq] at h
        obtain ⟨h1, h2, h3⟩ := h
        obtain ⟨hf, hp⟩ := ih g rest1 g1 log2 hrec
        subst h1; subst h2; subst h3
        constructor
        · simp [List.filter_cons, ht, hf]
        · simp only [processSource, ht, Bool.false_eq_true, if_neg, ite_false,
            hp, consOut]

theorem processSource_to_log (src : Person) (day : ℤ) (ps : List Person)
    (g : Rng) (ps' : List Person) (g' : Rng)
    (h : processSource src day ps g = .ok (ps', g')) :
    ∃ log, processSourceLog src day ps g = some (ps', g', log) := by
  induction ps generalizing g ps' g' with
  | nil =>
    simp only [processSource, Except.ok.injEq, Prod.mk.injEq] at h
    obtain ⟨h1, h2⟩ := h
    subst h1; subst h2
    exact ⟨[], rfl⟩
  | cons t rest ih =>
    simp only [processSource] at h
    split_ifs at h with ht
    · rcases hpt : processTarget src t day g with e | ⟨t1, g1⟩
      · simp only [hpt] at h
        cases h
      · simp only [hpt] at h
        rcases hrec : processSource src day rest g1 with r | ⟨rest1, g2⟩
        · simp only [hrec, consOut] at h
          cases h
        · simp only [hrec, consOut, Except.ok.injEq, Prod.mk.injEq] at h
          obtain ⟨h1, h2⟩ := h
          subst h1; subst h2
          obtain ⟨log2, hlog2⟩ := ih g1 rest1 g2 hrec
          exact ⟨t :: log2, by
            simp only [processSourceLog, ht, if_pos, hpt, hlog2]⟩
    · rcases hrec : processSource src day rest g with r | ⟨rest1, g1⟩
      · simp only [hrec, consOut] at h
        cases h
      · simp only [hrec, consOut, Except.ok.injEq, Prod.mk.injEq] at h
        obtain ⟨h1, h2⟩ := h
        subst h1; subst h2
        obtain ⟨log2, hlog2⟩ := ih g rest1 g1 hrec
        exact ⟨log2, by
          simp only [processSourceLog, ht, Bool.false_eq_true, if_neg,
            ite_false, hlog2]⟩

theorem processSourcesLog_spec (day : ℤ) (srcs : List Person) :
    ∀ (ps : List Person) (g : Rng), (∀ s ∈ srcs, SrcOK s) →
      ∃ ps' g' log, processSourcesLog day srcs ps g = some (ps', g', log) ∧
        processSources day srcs ps g = .ok (ps', g') ∧
        PairSpec day srcs ps g log := by
  induction srcs with
  | nil => exact fun ps g _ => ⟨ps, g, [], rfl, rfl, rfl⟩
  | cons s rest ih =>
    intro ps g hs
    rcases hr : processSource s day ps g with r | ⟨ps1, g1⟩
    · exact absurd hr (fun h =>
        processSource_no_error _ _ _ _ _ (hs s (by simp)) h)
    · obtain ⟨log1, hlog1⟩ := processSource_to_log _ _ _ _ _ _ hr
      obtain ⟨hfilter, -⟩ := processSourceLog_spec _ _ _ _ _ _ _ hlog1
      obtain ⟨ps2, g2, log2, hL, hP, hSpec⟩ :=
        ih ps1 g1 (fun q hq => hs q (List.mem_cons_of_mem _ hq))
      refine ⟨ps2, g2, log1.map (fun t => (s, t)) ++ log2, ?_, ?_, ?_⟩
      · simp only [processSourcesLog, hlog1, hL]
      · simp only [processSources, hr, hP]
      · refine ⟨ps1, g1, log2, hr, ?_, hSpec⟩
        rw [hfilter]

theorem PairSpec_mem (day : ℤ) (srcs ps : List Person) (g : Rng)
    (log : List (Person × Person)) (h : PairSpec day srcs ps g log) :
    ∀ pr ∈ log, pr.1 ∈ srcs ∧ targetTest pr.2 = true := by
  induction srcs generalizing ps g log with
  | nil =>
    rw [PairSpec] at h
    subst h
    intro pr hpr
    simp at hpr
  | cons s rest ih =>
    rw [PairSpec] at h
    obtain ⟨ps1, g1, log1, -, hlog, hrec⟩ := h
    subst hlog
    intro pr hpr
    rcases List.mem_append.1 hpr with hl | hr2
    · obtain ⟨t, htm, hte⟩ := List.mem_map.1 hl
      have htf := List.mem_filter.1 htm
      subst hte
      exact ⟨by simp, htf.2⟩
    · obtain ⟨h1, h2⟩ := ih ps1 g1 log1 hrec pr hr2
      exact ⟨List.mem_cons_of_mem _ h1, h2⟩

/-- C2.  The transmission pass of `World.update` evaluates exactly the
pairs of the Cartesian product of the *snapshotted* source list —
`sourceFilter ps`, every agent `INFECTED` and not quarantined in the
population as it stands when the pass begins, so agents newly infected
during the pass never act as sources that day — with, for each source
in order, the target set of exactly the agents satisfying
`health = HEALTHY ∧ ¬vaccinated` in the population state current when
that source is processed (`PairSpec`).  Consequently every evaluated
pair has an infected, unquarantined source from the initial population
and a healthy, unvaccinated target: `RECOVERED`, `DECEASED` and
vaccinated agents are never targeted, quarantined agents are never
sources.  (The hypothesis — every snapshotted source carries a pathogen
with a vector — is the program invariant under which the pass runs
without raising.) -/
theorem transmission_pass_pairs (ps : List Person) (day : ℤ) (g : Rng)
    (hs : ∀ s ∈ sourceFilter ps, SrcOK s) :
    ∃ ps' g' log, transmissionPassLog ps day g = some (ps', g', log) ∧
      transmissionPass ps day g = .ok (ps', g') ∧
      PairSpec day (sourceFilter ps) ps g log ∧
      ∀ pr ∈ log,
        (pr.1 ∈ ps ∧ pr.1.health = .INFECTED ∧ pr.1.quarantined = false) ∧
          pr.2.health = .HEALTHY ∧ pr.2.vaccinated = false := by
  obtain ⟨ps', g', log, h1, h2, h3⟩ :=
    processSourcesLog_spec day (sourceFilter ps) ps g hs
  refine ⟨ps', g', log, h1, h2, h3, ?_⟩
  intro pr hpr
  obtain ⟨hsrc, htgt⟩ := PairSpec_mem _ _ _ _ _ h3 pr hpr
  refine ⟨?_, ?_⟩
  · have hmem := List.mem_filter.1 hsrc
    have hcond := of_decide_eq_true hmem.2
    refine ⟨hmem.1, hcond.1, ?_⟩
    have := hcond.2
    simpa using this
  · have h4 := htgt
    simp only [targetTest, Bool.and_eq_true, decide_eq_true_eq,
      Bool.not_eq_true'] at h4
    exact h4

/-- Witness for `transmission_pass_pairs` on the concrete two-agent
active world. -/
theorem transmission_pass_pairs_witness :
    (∀ s ∈ sourceFilter worldActive.population, SrcOK s) ∧
      ∃ ps' g' log,
        transmissionPassLog worldActive.population 5 ⟨[0.9, 0.9], [0]⟩ =
          some (ps', g', log) ∧
        transmissionPass worldActive.population 5 ⟨[0.9, 0.9], [0]⟩ =
          .ok (ps', g') ∧
        PairSpec 5 (sourceFilter worldActive.population)
          worldActive.population ⟨[0.9, 0.9], [0]⟩ log ∧
        ∀ pr ∈ log,
          (pr.1 ∈ worldActive.population ∧ pr.1.health = .INFECTED ∧
              pr.1.quarantined = false) ∧
            pr.2.health = .HEALTHY ∧ pr.2.vaccinated = false := by
  have hs : ∀ s ∈ sourceFilter worldActive.population, SrcOK s := by
    intro s hsm
    rw [show sourceFilter worldActive.population = [personZero] from rfl,
      List.mem_singleton] at hsm
    subst hsm
    exact ⟨patX, rfl, by simp [patX, Pathogen.init, keysOf]⟩
  exact ⟨hs, transmission_pass_pairs worldActive.population 5
    ⟨[0.9, 0.9], [0]⟩ hs⟩

end VirusSim
